import Mathlib

/-!
Shallow embedding of the NEAT core of the NEToolKit repository
(src/NEToolKit/src/neat/genome.cpp, src/NEToolKit/src/neat/base_neat.cpp,
src/unnamed/part_000, src/unnamed/part_001).

Conventions of the embedding:
* `neuron_id_t` and innovation numbers (unsigned integers) become `Nat`.
* `neuron_value_t` (C++ `double`) becomes `ℚ`; overflow and rounding of
  doubles play no role in the claims below except where explicitly noted
  (the `-DBL_MAX` sentinel of `get_current_best_genome`, kept as the exact
  rational value of the IEEE-754 double `DBL_MAX`).
* Random draws are threaded in as explicit oracle arguments: the index /
  value the C++ distribution produced at that call site.
* The innovation pool, the serializer and the species type are code of the
  repository that is not under src/; those definitions are modelled from
  the specification (sections 4.1, 3 and 6) and each carries a doc comment
  saying so.
-/

/-- Gene, as in netkit/neat/gene.h (used throughout genome.cpp): a directed
weighted edge `(innov_num, from, to, weight, enabled)`.  The C++ field
`from` is a Lean keyword and is rendered `from_`, and `to` (also reserved) is rendered `to_`.  Fresh genes are built
enabled (`gene(innov, from, to, weight)` constructor). -/
structure gene where
  innov_num : Nat
  from_ : Nat
  to_ : Nat
  weight : ℚ
  enabled : Bool
deriving DecidableEq, Repr

/-- Parameter record, the fields of netkit::parameters read by the code
under verification. -/
structure parameters where
  number_of_inputs : Nat
  number_of_outputs : Nat
  distance_coef_c1 : ℚ
  distance_coef_c2 : ℚ
  distance_coef_c3 : ℚ
  compatibility_threshold : ℚ
  dynamic_compatibility_threshold : Bool
deriving DecidableEq, Repr

/-- Genome, as in genome.cpp: gene list, known-neuron list, fitness.
The `m_neat` back pointer of the C++ class is replaced by passing the
parameter record / innovation pool explicitly to each operation. -/
structure genome where
  m_number_of_inputs : Nat
  m_number_of_outputs : Nat
  m_genes : List gene
  m_known_neuron_ids : List Nat
  m_fitness : ℚ
deriving DecidableEq, Repr

/-- genome::BIAS_ID (genome.cpp line 11). -/
def genome.BIAS_ID : Nat := 0

/-- genome::genome(neat*) (genome.cpp lines 13-29): empty gene list, known
neurons = bias, inputs 1..I, outputs I+1..I+O, fitness 0. -/
def genome_ctor (ninputs noutputs : Nat) : genome :=
  { m_number_of_inputs := ninputs
    m_number_of_outputs := noutputs
    m_genes := []
    m_known_neuron_ids :=
      genome.BIAS_ID :: (((List.range ninputs).map fun i => i + 1)
        ++ ((List.range noutputs).map fun i => i + 1 + ninputs))
    m_fitness := 0 }

/-- genome::genome(genome&&) (genome.cpp lines 31-38): the move constructor
transfers genes and known neurons but initialises `m_fitness` to 0. -/
def genome.move_construct (other : genome) : genome :=
  { m_number_of_inputs := other.m_number_of_inputs
    m_number_of_outputs := other.m_number_of_outputs
    m_genes := other.m_genes
    m_known_neuron_ids := other.m_known_neuron_ids
    m_fitness := 0 }

/-- genome::add_gene (genome.cpp lines 40-51): add unknown endpoints to the
known-neuron list, then append the gene at the back of the gene list. -/
def genome.add_gene (g : genome) (new_gene : gene) : genome :=
  let k1 := if new_gene.from_ ∈ g.m_known_neuron_ids then g.m_known_neuron_ids
            else g.m_known_neuron_ids ++ [new_gene.from_]
  let k2 := if new_gene.to_ ∈ k1 then k1 else k1 ++ [new_gene.to_]
  { g with m_known_neuron_ids := k2, m_genes := g.m_genes ++ [new_gene] }

/-- genome::link_exists (genome.cpp lines 53-60). -/
def genome.link_exists (g : genome) (f t : Nat) : Bool :=
  g.m_genes.any fun ge => decide (ge.from_ = f) && decide (ge.to_ = t)

/-- Counters accumulated by the merge walk of genome::distance_to
(genome.cpp lines 68-101). -/
structure distCounts where
  nb_matching_genes : Nat
  nb_disjoint_genes : Nat
  nb_excess_genes : Nat
  sum_weight_difference : ℚ
deriving DecidableEq, Repr

/-- The two-iterator merge walk of genome::distance_to (genome.cpp lines
76-101): while both lists are nonempty, equal innovation numbers count as
matching (accumulating |wA - wB|), otherwise the smaller side advances and
counts as disjoint; all leftovers of either side count as excess. -/
def geneWalk : List gene → List gene → distCounts
  | [], ys => ⟨0, 0, ys.length, 0⟩
  | x :: xs, [] => ⟨0, 0, (x :: xs).length, 0⟩
  | x :: xs, y :: ys =>
    if x.innov_num = y.innov_num then
      let r := geneWalk xs ys
      ⟨r.nb_matching_genes + 1, r.nb_disjoint_genes, r.nb_excess_genes,
        r.sum_weight_difference + |x.weight - y.weight|⟩
    else if x.innov_num < y.innov_num then
      let r := geneWalk xs (y :: ys)
      ⟨r.nb_matching_genes, r.nb_disjoint_genes + 1, r.nb_excess_genes,
        r.sum_weight_difference⟩
    else
      let r := geneWalk (x :: xs) ys
      ⟨r.nb_matching_genes, r.nb_disjoint_genes + 1, r.nb_excess_genes,
        r.sum_weight_difference⟩
termination_by xs ys => xs.length + ys.length

/-- genome::distance_to (genome.cpp lines 62-106).  Returns 0 when the
larger gene-list size is at most 4; otherwise
`c1*excess/N + c2*disjoint/N + c3*(sum_weight_difference/nb_matching)`.
The C++ divides doubles, embedded as division on `ℚ` (with the caveat that
`x / 0 = 0` on `ℚ` whereas the double division produces NaN; claim C10
is about exactly that divisor). -/
def genome.distance_to (p : parameters) (self other : genome) : ℚ :=
  let larger_size : Nat := max self.m_genes.length other.m_genes.length
  if larger_size ≤ 4 then 0
  else
    let r := geneWalk self.m_genes other.m_genes
    let average_weight_difference : ℚ :=
      r.sum_weight_difference / (r.nb_matching_genes : ℚ)
    p.distance_coef_c1 * (r.nb_excess_genes : ℚ) / (larger_size : ℚ)
      + p.distance_coef_c2 * (r.nb_disjoint_genes : ℚ) / (larger_size : ℚ)
      + p.distance_coef_c3 * average_weight_difference

/-- genome::is_compatible_with (genome.cpp lines 108-110). -/
def genome.is_compatible_with (p : parameters) (self other : genome) : Prop :=
  genome.distance_to p self other < p.compatibility_threshold

/-- Innovation kind tag (netkit/neat/innovation.h, used at genome.cpp line
222 as `NEW_NEURON`). -/
inductive innov_type
  | NEW_LINK
  | NEW_NEURON
deriving DecidableEq, Repr

/-- Modelled from the spec: `InnovationRecord` (section 3), the tagged union
with variants `NewLink { innov, from, to }` and
`NewNeuron { innov_in, innov_out, from, to, new_neuron_id }`; the concrete
field names follow the uses in genome.cpp (innov_num, innov_num_2, from,
to, new_neuron_id).  The innovation header itself is not under src/. -/
structure innovation where
  type : innov_type
  innov_num : Nat
  innov_num_2 : Nat
  from_ : Nat
  to_ : Nat
  new_neuron_id : Nat
deriving DecidableEq, Repr

/-- innovation::new_link_innovation (used at genome.cpp lines 187-191);
fields that the NewLink variant does not carry are zero. -/
def innovation.new_link_innovation (i f t : Nat) : innovation :=
  ⟨innov_type.NEW_LINK, i, 0, f, t, 0⟩

/-- innovation::new_neuron_innovation (used at genome.cpp lines 239-245). -/
def innovation.new_neuron_innovation (i1 i2 f t nid : Nat) : innovation :=
  ⟨innov_type.NEW_NEURON, i1, i2, f, t, nid⟩

/-- Modelled from the spec: `InnovationPool` (section 3): the next
innovation counter, the next hidden-neuron counter, a registry of canonical
genes keyed by (from, to) and a registry of innovations keyed by
(kind, from, to).  The pool's source file is not under src/. -/
structure innovation_pool where
  next_innov : Nat
  next_hidden : Nat
  gene_registry : List gene
  innovation_registry : List innovation
deriving DecidableEq, Repr

/-- Modelled from the spec: `next_innovation() → InnovationNumber`: returns
and increments (section 4.1). -/
def innovation_pool.next_innovation (p : innovation_pool) : Nat × innovation_pool :=
  (p.next_innov, { p with next_innov := p.next_innov + 1 })

/-- Modelled from the spec: `next_hidden_neuron() → NeuronId`: returns and
increments the hidden-neuron counter (section 4.1); the call site in
genome.cpp line 230 names it next_hidden_neuron_id. -/
def innovation_pool.next_hidden_neuron_id (p : innovation_pool) : Nat × innovation_pool :=
  (p.next_hidden, { p with next_hidden := p.next_hidden + 1 })

/-- Modelled from the spec: `find_gene(from, to) → optional<Gene>`: the
canonical gene recorded for that directed pair (section 4.1). -/
def innovation_pool.find_gene (p : innovation_pool) (f t : Nat) : Option gene :=
  p.gene_registry.find? fun ge => decide (ge.from_ = f) && decide (ge.to_ = t)

/-- Modelled from the spec: `register_gene(g)`: idempotent-by-(from,to);
first write wins (section 4.1). -/
def innovation_pool.register_gene (p : innovation_pool) (g : gene) : innovation_pool :=
  match p.find_gene g.from_ g.to_ with
  | some _ => p
  | none => { p with gene_registry := p.gene_registry ++ [g] }

/-- Modelled from the spec:
`find_innovation(kind, from, to) → optional<InnovationRecord>`
(section 4.1). -/
def innovation_pool.find_innovation (p : innovation_pool) (k : innov_type) (f t : Nat) :
    Option innovation :=
  p.innovation_registry.find? fun rec =>
    decide (rec.type = k) && decide (rec.from_ = f) && decide (rec.to_ = t)

/-- Modelled from the spec: `register_innovation(rec)`: first write wins
keyed by (kind, from, to) (section 4.1). -/
def innovation_pool.register_innovation (p : innovation_pool) (rec : innovation) :
    innovation_pool :=
  match p.find_innovation rec.type rec.from_ rec.to_ with
  | some _ => p
  | none => { p with innovation_registry := p.innovation_registry ++ [rec] }

/-- The gene a successful add_link appends (genome.cpp lines 178-193): the
pool's canonical gene for the pair with its weight re-randomised to `w`,
or a fresh gene carrying `next_innovation()`. -/
def addlink_gene (p : innovation_pool) (f t : Nat) (w : ℚ) : gene :=
  match p.find_gene f t with
  | some existing => { existing with weight := w }
  | none => ⟨p.next_innov, f, t, w, true⟩

/-- genome::mutate_add_link (genome.cpp lines 163-196).  The two index
draws of the C++ distributions arrive as `fi` (uniform over all of
m_known_neuron_ids) and `ti` (the destination index; the C++ draw is
offset by number_of_inputs + 1 so that it never lands on an input or
bias), and the weight draw of the perturbator as `w`.  Returns the C++
bool result together with the mutated genome and pool. -/
def genome.mutate_add_link (g : genome) (p : innovation_pool) (fi ti : Nat) (w : ℚ) :
    Bool × genome × innovation_pool :=
  let f := g.m_known_neuron_ids.getD fi 0
  let t := g.m_known_neuron_ids.getD ti 0
  if g.link_exists f t then (false, g, p)
  else
    match p.find_gene f t with
    | some existing =>
      (true, g.add_gene { existing with weight := w }, p)
    | none =>
      let n := p.next_innovation
      let new_gene : gene := ⟨n.1, f, t, w, true⟩
      let p2 := n.2.register_gene new_gene
      let p3 := p2.register_innovation
        (innovation.new_link_innovation new_gene.innov_num new_gene.from_ new_gene.to_)
      (true, g.add_gene new_gene, p3)

/-- Replace the element at index `i` by `f` applied to it (the in-place
`m_genes[idx] = ...` updates of genome.cpp); out-of-range indices leave
the list unchanged (the C++ draws are always in range). -/
def modifyGene : List gene → Nat → (gene → gene) → List gene
  | [], _, _ => []
  | x :: xs, 0, f => f x :: xs
  | x :: xs, n + 1, f => x :: modifyGene xs n f

/-- The scan of genome.cpp lines 207-213: walk the shuffled index list
`order` and return the first index whose gene is enabled, together with
that gene. -/
def first_enabled (genes : List gene) : List Nat → Option (Nat × gene)
  | [] => none
  | i :: rest =>
    match genes.get? i with
    | some ge => if ge.enabled then some (i, ge) else first_enabled genes rest
    | none => first_enabled genes rest

/-- genome::mutate_add_neuron (genome.cpp lines 198-252).  The shuffle
produced by the static std::mt19937 generator arrives as `order`, the
traversal order of the gene indices (the C++ shuffles 0..size-1).  The
selected gene is disabled, then the edge is split: via the pool's
registered NewNeuron innovation when one exists for (from, to), else with
two fresh innovation numbers and a fresh hidden neuron id, registering the
two canonical genes and the NewNeuron record.  Both new genes carry the
replaced gene's weight. -/
def genome.mutate_add_neuron (g : genome) (p : innovation_pool) (order : List Nat) :
    Bool × genome × innovation_pool :=
  match first_enabled g.m_genes order with
  | none => (false, g, p)
  | some (sel_idx, sel) =>
    let g1 : genome :=
      { g with m_genes := modifyGene g.m_genes sel_idx fun ge => { ge with enabled := false } }
    match p.find_innovation innov_type.NEW_NEURON sel.from_ sel.to_ with
    | some existing =>
      (true,
        (g1.add_gene ⟨existing.innov_num, existing.from_, existing.new_neuron_id,
            sel.weight, true⟩).add_gene
          ⟨existing.innov_num_2, existing.new_neuron_id, existing.to_, sel.weight, true⟩,
        p)
    | none =>
      let h := p.next_hidden_neuron_id
      let n1 := h.2.next_innovation
      let n2 := n1.2.next_innovation
      let new_gene_1 : gene := ⟨n1.1, sel.from_, h.1, sel.weight, true⟩
      let new_gene_2 : gene := ⟨n2.1, h.1, sel.to_, sel.weight, true⟩
      let p4 := (n2.2.register_gene new_gene_1).register_gene new_gene_2
      let p5 := p4.register_innovation
        (innovation.new_neuron_innovation new_gene_1.innov_num new_gene_2.innov_num
          sel.from_ sel.to_ h.1)
      (true, (g1.add_gene new_gene_1).add_gene new_gene_2, p5)

/-- genome::mutate_reenable_gene (genome.cpp lines 254-269): the indices of
the disabled genes, in gene-list order (`i0` is the index of the head). -/
def disabled_indices : List gene → Nat → List Nat
  | [], _ => []
  | x :: xs, i0 => if x.enabled then disabled_indices xs (i0 + 1)
                   else i0 :: disabled_indices xs (i0 + 1)

/-- genome::mutate_reenable_gene (genome.cpp lines 254-269): fail when no
gene is disabled, else enable the candidate selected by the draw `k`
(the C++ draw is uniform over 0..candidates.size()-1). -/
def genome.mutate_reenable_gene (g : genome) (k : Nat) : Bool × genome :=
  let candidates := disabled_indices g.m_genes 0
  if candidates.isEmpty then (false, g)
  else (true, { g with m_genes := (modifyGene g.m_genes (candidates.getD k 0)
                  fun ge => { ge with enabled := true }) })

/-- genome::mutate_toggle_enable (genome.cpp lines 271-281): fail on an
empty gene list, else invert the enable flag of the gene at the drawn
index. -/
def genome.mutate_toggle_enable (g : genome) (idx : Nat) : Bool × genome :=
  if g.m_genes.isEmpty then (false, g)
  else (true, { g with m_genes := (modifyGene g.m_genes idx
                  fun ge => { ge with enabled := !ge.enabled }) })

/-- genome::mutate_one_weight (genome.cpp lines 283-295): fail on an empty
gene list, else add the perturbator draw `delta` to the weight of the gene
at the drawn index. -/
def genome.mutate_one_weight (g : genome) (idx : Nat) (delta : ℚ) : Bool × genome :=
  if g.m_genes.isEmpty then (false, g)
  else (true, { g with m_genes := (modifyGene g.m_genes idx
                  fun ge => { ge with weight := ge.weight + delta }) })

/-- The per-gene loop of genome::mutate_all_weights (genome.cpp lines
300-302): `d i` is the perturbator draw consumed for the i-th gene. -/
def perturb_all (d : Nat → ℚ) : List gene → List gene
  | [] => []
  | x :: xs => { x with weight := x.weight + d 0 } :: perturb_all (fun n => d (n + 1)) xs

/-- genome::mutate_all_weights (genome.cpp lines 297-305): adds a fresh
perturbator draw to every weight; always succeeds. -/
def genome.mutate_all_weights (g : genome) (d : Nat → ℚ) : Bool × genome :=
  (true, { g with m_genes := perturb_all d g.m_genes })

/-- The per-gene loop of genome::mutate_reset_weights (genome.cpp lines
310-312): each weight is replaced by a fresh draw. -/
def reset_all (d : Nat → ℚ) : List gene → List gene
  | [] => []
  | x :: xs => { x with weight := d 0 } :: reset_all (fun n => d (n + 1)) xs

/-- genome::mutate_reset_weights (genome.cpp lines 307-315): replaces every
weight by a fresh perturbator draw; always succeeds. -/
def genome.mutate_reset_weights (g : genome) (d : Nat → ℚ) : Bool × genome :=
  (true, { g with m_genes := reset_all d g.m_genes })

/-- genome::mutate_remove_gene (genome.cpp lines 317-327): fail on an empty
gene list, else erase the gene at the drawn index. -/
def genome.mutate_remove_gene (g : genome) (idx : Nat) : Bool × genome :=
  if g.m_genes.isEmpty then (false, g)
  else (true, { g with m_genes := g.m_genes.eraseIdx idx })

/-- The retry loop of genome::get_random_mutation (genome.cpp lines
112-119): `remaining_tries` starts at 3 and the loop runs
`while (!offspring.random_mutate() && remaining_tries--)`.  `oc k` is the
success result of the (k+1)-th call to random_mutate; `idx` is the number
of calls already made.  The value is the total number of random_mutate
calls performed. -/
def grm_loop (oc : Nat → Bool) : Nat → Nat → Nat
  | idx, remaining_tries =>
    if oc idx then idx + 1
    else
      match remaining_tries with
      | 0 => idx + 1
      | r + 1 => grm_loop oc (idx + 1) r

/-- Number of random_mutate calls genome::get_random_mutation performs for
a given outcome oracle (genome.cpp lines 115-116: `remaining_tries = 3`). -/
def random_mutate_call_count (oc : Nat → Bool) : Nat :=
  grm_loop oc 0 3

/-- The exact rational value of the IEEE-754 double DBL_MAX =
(2 - 2⁻⁵²) · 2¹⁰²³ (std::numeric_limits<double>::max(), base_neat.cpp
line 98). -/
def dblMax : ℚ := 2 ^ 1024 - 2 ^ 971

/-- base_neat::get_current_best_genome (base_neat.cpp lines 97-108): scan
the population, keeping the first genome whose fitness strictly exceeds
the running best, starting from `-1 * DBL_MAX`; the C++ returns
`*champion`, so `none` models the undefined dereference of the null
champion pointer. -/
def get_current_best_genome (pop : List genome) : Option genome :=
  (pop.foldl
    (fun acc geno => if geno.m_fitness > acc.1 then (geno.m_fitness, some geno) else acc)
    (-1 * dblMax, (none : Option genome))).2

/-- Modelled from the spec: one value of the textual line-oriented stream
(section 6); the serializer and deserializer classes are not under src/.
The stream carries unsigned integers, reals and booleans. -/
inductive sval
  | nat (v : Nat)
  | rat (v : ℚ)
  | bool (v : Bool)
deriving DecidableEq, Repr

/-- Serialise every element of a list in order (the `for` loops around
`ser << x` in base_neat.cpp lines 195-204). -/
def ser_list {α : Type} (f : α → List sval) : List α → List sval
  | [] => []
  | x :: xs => f x ++ ser_list f xs

/-- Modelled from the spec: a gene serialises as
`(innov, from, to, weight, enabled)` (section 6). -/
def serialize_gene (g : gene) : List sval :=
  [sval.nat g.innov_num, sval.nat g.from_, sval.nat g.to_,
   sval.rat g.weight, sval.bool g.enabled]

/-- Modelled from the spec: read one gene back from the stream; a malformed
stream is a fatal deserialization mismatch (section 7), hence `none`. -/
def des_gene : List sval → Option (gene × List sval)
  | sval.nat i :: sval.nat f :: sval.nat t :: sval.rat w :: sval.bool e :: r =>
    some (⟨i, f, t, w, e⟩, r)
  | _ => none

/-- Read `n` consecutive items with the item parser `p` (the counted loops
of base_neat.cpp lines 235-252). -/
def des_list {α : Type} (p : List sval → Option (α × List sval)) :
    Nat → List sval → Option (List α × List sval)
  | 0, r => some ([], r)
  | n + 1, r =>
    match p r with
    | some (a, r1) =>
      match des_list p n r1 with
      | some (l, r2) => some (a :: l, r2)
      | none => none
    | none => none

/-- Modelled from the spec: each genome serialises as number-of-inputs,
number-of-outputs, fitness, gene-count, then each gene (section 6). -/
def serialize_genome (g : genome) : List sval :=
  [sval.nat g.m_number_of_inputs, sval.nat g.m_number_of_outputs,
   sval.rat g.m_fitness, sval.nat g.m_genes.length]
    ++ ser_list serialize_gene g.m_genes

/-- Modelled from the spec: read a genome back (section 6).  The C++
pattern is `genome g(this); des >> g;` (base_neat.cpp lines 225-226 and
249-250): the genome starts from the constructor state and the genes are
installed through add_gene, which rebuilds the known-neuron list from the
gene endpoints. -/
def des_genome (s : List sval) : Option (genome × List sval) :=
  match s with
  | sval.nat ni :: sval.nat no :: sval.rat f :: sval.nat n :: r =>
    match des_list des_gene n r with
    | some (gs, r1) =>
      some ({ gs.foldl genome.add_gene (genome_ctor ni no) with m_fitness := f }, r1)
    | none => none
  | _ => none

/-- Modelled from the spec: `Species` (section 3):
`(id, representant, members, age, stagnation_counter,
best_fitness_ever_in_species, adjusted_fitness_sum)`.  The species source
file is not under src/. -/
structure species where
  id : Nat
  representant : genome
  members : List Nat
  age : Nat
  stagnation_counter : Nat
  best_fitness_ever_in_species : ℚ
  adjusted_fitness_sum : ℚ
deriving DecidableEq, Repr

/-- Modelled from the spec: a species serialises as its scalar fields, its
representant genome, and its member list prefixed by count (the species
operator<< is not under src/; the field order follows the data model of
section 3). -/
def serialize_species (sp : species) : List sval :=
  sval.nat sp.id :: serialize_genome sp.representant
    ++ (sval.nat sp.members.length :: ser_list (fun m => [sval.nat m]) sp.members)
    ++ [sval.nat sp.age, sval.nat sp.stagnation_counter,
        sval.rat sp.best_fitness_ever_in_species, sval.rat sp.adjusted_fitness_sum]

/-- Modelled from the spec: read one member id. -/
def des_member : List sval → Option (Nat × List sval)
  | sval.nat m :: r => some (m, r)
  | _ => none

/-- Modelled from the spec: read a species back (the inverse of
serialize_species; the C++ replaces a dummy representant during
deserialization, base_neat.cpp lines 236-241). -/
def des_species (s : List sval) : Option (species × List sval) :=
  match s with
  | sval.nat i :: r0 =>
    match des_genome r0 with
    | some (rep, r1) =>
      match r1 with
      | sval.nat nm :: r2 =>
        match des_list des_member nm r2 with
        | some (ms, r3) =>
          match r3 with
          | sval.nat age :: sval.nat st :: sval.rat bf :: sval.rat adj :: r4 =>
            some (⟨i, rep, ms, age, st, bf, adj⟩, r4)
          | _ => none
        | none => none
      | _ => none
    | none => none
  | _ => none

/-- Numeric code of an innovation kind on the stream. -/
def innov_type.code : innov_type → Nat
  | innov_type.NEW_LINK => 0
  | innov_type.NEW_NEURON => 1

/-- Modelled from the spec: an innovation record serialises as its kind
code followed by its five numeric fields (the innovation operator<< is not
under src/). -/
def serialize_innovation (rec : innovation) : List sval :=
  [sval.nat rec.type.code, sval.nat rec.innov_num, sval.nat rec.innov_num_2,
   sval.nat rec.from_, sval.nat rec.to_, sval.nat rec.new_neuron_id]

/-- Modelled from the spec: read an innovation record back. -/
def des_innovation : List sval → Option (innovation × List sval)
  | sval.nat c :: sval.nat i1 :: sval.nat i2 :: sval.nat f :: sval.nat t ::
      sval.nat nn :: r =>
    match c with
    | 0 => some (⟨innov_type.NEW_LINK, i1, i2, f, t, nn⟩, r)
    | 1 => some (⟨innov_type.NEW_NEURON, i1, i2, f, t, nn⟩, r)
    | _ => none
  | _ => none

/-- Modelled from the spec: the innovation pool serialises as its two
counters, the gene registry prefixed by count and the innovation registry
prefixed by count (the pool operator<< is not under src/). -/
def serialize_innovation_pool (p : innovation_pool) : List sval :=
  sval.nat p.next_innov :: sval.nat p.next_hidden ::
    (sval.nat p.gene_registry.length :: ser_list serialize_gene p.gene_registry)
    ++ (sval.nat p.innovation_registry.length ::
        ser_list serialize_innovation p.innovation_registry)

/-- Modelled from the spec: read the innovation pool back. -/
def des_innovation_pool (s : List sval) : Option (innovation_pool × List sval) :=
  match s with
  | sval.nat ni :: sval.nat nh :: sval.nat ng :: r0 =>
    match des_list des_gene ng r0 with
    | some (gr, r1) =>
      match r1 with
      | sval.nat nr :: r2 =>
        match des_list des_innovation nr r2 with
        | some (ir, r3) => some (⟨ni, nh, gr, ir⟩, r3)
        | none => none
      | _ => none
    | none => none
  | _ => none

/-- The driver state that base_neat::helper_serialize_base_neat /
helper_deserialize_base_neat read and write (base_neat.cpp lines 176-256);
the population lives in the derived class and is outside these helpers. -/
structure base_neat_state where
  params : parameters
  m_next_species_id : Nat
  m_age_of_best_genome_ever : Nat
  m_best_genome_ever : Option genome
  m_all_species : List species
  m_best_genomes_library : List genome
  innov_pool : innovation_pool
deriving DecidableEq

/-- base_neat::helper_serialize_base_neat (base_neat.cpp lines 176-208):
next-species-id, age-of-best-ever, compatibility threshold, a boolean
followed (if true) by the best-ever genome, the species list prefixed by
count, the best-genomes library prefixed by count, the innovation pool. -/
def helper_serialize_base_neat (s : base_neat_state) : List sval :=
  sval.nat s.m_next_species_id :: sval.nat s.m_age_of_best_genome_ever ::
    sval.rat s.params.compatibility_threshold ::
    (match s.m_best_genome_ever with
     | none => [sval.bool false]
     | some b => sval.bool true :: serialize_genome b)
    ++ (sval.nat s.m_all_species.length :: ser_list serialize_species s.m_all_species)
    ++ (sval.nat s.m_best_genomes_library.length ::
        ser_list serialize_genome s.m_best_genomes_library)
    ++ serialize_innovation_pool s.innov_pool

/-- base_neat::helper_deserialize_base_neat (base_neat.cpp lines 210-256),
run on the driver `s` (the freshly constructed target).  The compatibility
threshold is installed only when params.dynamic_compatibility_threshold is
set (lines 215-219).  The best-ever genome is read and then MOVE
constructed into place (line 228: `new genome(std::move(best_g))`), and
each library genome is read and then moved into the vector (line 251:
`push_back(std::move(g))`); genome's move constructor resets m_fitness to
0 (genome.cpp line 37). -/
def helper_deserialize_base_neat (s : base_neat_state) (input : List sval) :
    Option base_neat_state :=
  match input with
  | sval.nat nsid :: sval.nat age :: sval.rat ct :: sval.bool hb :: r1 =>
    let params' := if s.params.dynamic_compatibility_threshold
                   then { s.params with compatibility_threshold := ct } else s.params
    let bestAndRest : Option (Option genome × List sval) :=
      if hb then
        match des_genome r1 with
        | some (bg, r2) => some (some (genome.move_construct bg), r2)
        | none => none
      else some (s.m_best_genome_ever, r1)
    match bestAndRest with
    | some (best, r2) =>
      match r2 with
      | sval.nat nsp :: r3 =>
        match des_list des_species nsp r3 with
        | some (sps, r4) =>
          match r4 with
          | sval.nat nlib :: r5 =>
            match des_list des_genome nlib r5 with
            | some (libgs, r6) =>
              match des_innovation_pool r6 with
              | some (pool2, _) =>
                some { params := params'
                       m_next_species_id := nsid
                       m_age_of_best_genome_ever := age
                       m_best_genome_ever := best
                       m_all_species := sps
                       m_best_genomes_library := libgs.map genome.move_construct
                       innov_pool := pool2 }
              | none => none
            | none => none
          | _ => none
        | none => none
      | _ => none
    | none => none
  | _ => none

/-- The first invariant of claim C3 (spec section 3): the known-neurons
list is a superset of all gene endpoints. -/
def endpoints_known (g : genome) : Prop :=
  ∀ ge ∈ g.m_genes, ge.from_ ∈ g.m_known_neuron_ids ∧ ge.to_ ∈ g.m_known_neuron_ids

/-- The second invariant of claim C3 (spec section 3): the gene list is
sorted by innovation number. -/
def sorted_by_innov (l : List gene) : Prop :=
  l.Pairwise fun a b => a.innov_num ≤ b.innov_num

/-- Gene with the given innovation number on the fixed edge (0, 2) with
weight 1 (all weights equal), for the worked distance example of claim C2. -/
def c2gene (i : Nat) : gene := ⟨i, 0, 2, 1, true⟩

/-- Genome A of the spec's disjoint+excess counting scenario: innovation
numbers {1,2,3,5,8}, all weights equal. -/
def c2A : genome := ⟨1, 1, [c2gene 1, c2gene 2, c2gene 3, c2gene 5, c2gene 8], [0, 1, 2], 0⟩

/-- Genome B of the spec's disjoint+excess counting scenario: innovation
numbers {1,2,4,5,9,10}, all weights equal. -/
def c2B : genome := ⟨1, 1, [c2gene 1, c2gene 2, c2gene 4, c2gene 5, c2gene 9, c2gene 10],
  [0, 1, 2], 0⟩

/-- Parameters with c1 = c2 = c3 = 1 for the worked distance example. -/
def c2params : parameters := ⟨1, 1, 1, 1, 1, 3, false⟩

/-- Genome with 5 genes whose innovation numbers 1..5 are disjoint from
those of `c10B`, for claim C10. -/
def c10A : genome := ⟨1, 1, [c2gene 1, c2gene 2, c2gene 3, c2gene 4, c2gene 5], [0, 1, 2], 0⟩

/-- Genome with 6 genes whose innovation numbers 6..11 are disjoint from
those of `c10A`, for claim C10. -/
def c10B : genome := ⟨1, 1, [c2gene 6, c2gene 7, c2gene 8, c2gene 9, c2gene 10, c2gene 11],
  [0, 1, 2], 0⟩

/-- A population whose only genome has fitness exactly -DBL_MAX: no genome
strictly exceeds the initial best of get_current_best_genome, so the
champion pointer stays null (claim C8's counterexample). -/
def c8Pop : List genome := [⟨1, 1, [], [0, 1, 2], -1 * dblMax⟩]

/-- An all-negative population with ordinary fitness values, for claim
C8's witness. -/
def c8Pop2 : List genome := [⟨1, 1, [], [0, 1, 2], -5⟩, ⟨1, 1, [], [0, 1, 2], -3⟩]

/-- A genome with two enabled genes on different edges, for claim C6: the
static-generator shuffle decides which edge an add-neuron mutation
splits. -/
def c6G : genome := ⟨1, 1, [⟨1, 0, 2, 1, true⟩, ⟨2, 1, 2, 1, true⟩], [0, 1, 2], 0⟩

/-- An innovation pool with empty registries, counters 3 (= I + O + 1),
for claim C6. -/
def c6P : innovation_pool := ⟨3, 3, [], []⟩

/-- Two genes agreeing on innovation number and endpoints (they may differ
in weight and enable flag); the shape every weight / enable mutation
preserves. -/
def gene_shape_eq (x y : gene) : Prop :=
  x.innov_num = y.innov_num ∧ x.from_ = y.from_ ∧ x.to_ = y.to_

/-- The hidden-neuron id a successful add_neuron splitting `sel` uses:
the registered NewNeuron record's id when one exists, else the pool's
fresh hidden id (genome.cpp lines 221-245). -/
def addneuron_hid (p : innovation_pool) (sel : gene) : Nat :=
  match p.find_innovation innov_type.NEW_NEURON sel.from_ sel.to_ with
  | some ex => ex.new_neuron_id
  | none => p.next_hidden

/-- The innovation number of the first gene a successful add_neuron
appends. -/
def addneuron_i1 (p : innovation_pool) (sel : gene) : Nat :=
  match p.find_innovation innov_type.NEW_NEURON sel.from_ sel.to_ with
  | some ex => ex.innov_num
  | none => p.next_innov

/-- The innovation number of the second gene a successful add_neuron
appends. -/
def addneuron_i2 (p : innovation_pool) (sel : gene) : Nat :=
  match p.find_innovation innov_type.NEW_NEURON sel.from_ sel.to_ with
  | some ex => ex.innov_num_2
  | none => p.next_innov + 1

/-- A sorted one-gene genome (innovation 11 on edge (0, 2)) for claim C3's
counterexample. -/
def c3G : genome := ⟨1, 1, [⟨11, 0, 2, 0, true⟩], [0, 1, 2, 3], 0⟩

/-- A pool whose canonical gene for (1, 3) carries the old innovation
number 10 (its counters are past it), for claim C3's counterexample. -/
def c3P : innovation_pool := ⟨12, 4, [⟨10, 1, 3, 0, true⟩], []⟩

/-- A sorted one-gene genome used by claim C3's witness. -/
def c3W : genome := ⟨1, 1, [⟨1, 0, 2, 1, true⟩], [0, 1, 2], 0⟩

/-- A best-ever genome with non-zero fitness 5, for claims C4 and C9. -/
def c4best : genome := ⟨1, 1, [⟨0, 0, 2, 1/2, true⟩], [0, 1, 2], 5⟩

/-- A driver state holding `c4best` as best-ever genome, for claims C4 and
C9. -/
def c4S : base_neat_state :=
  ⟨⟨1, 1, 1, 1, 1, 3, false⟩, 0, 7, some c4best, [], [], ⟨5, 3, [], []⟩⟩

/-- A freshly constructed driver to deserialise into, for claims C4 and
C9. -/
def c4F : base_neat_state :=
  ⟨⟨1, 1, 1, 1, 1, 3, false⟩, 0, 0, none, [], [], ⟨0, 3, [], []⟩⟩

instance sorted_by_innov.inst (l : List gene) : Decidable (sorted_by_innov l) :=
  inferInstanceAs (Decidable (l.Pairwise _))

instance endpoints_known.inst (g : genome) : Decidable (endpoints_known g) :=
  inferInstanceAs (Decidable (∀ ge ∈ g.m_genes, _ ∧ _))

lemma register_innovation_gene_registry (p : innovation_pool) (rec : innovation) :
    (p.register_innovation rec).gene_registry = p.gene_registry := by
  unfold innovation_pool.register_innovation
  split <;> rfl

lemma find_gene_register_self (p : innovation_pool) (g : gene)
    (h : p.find_gene g.from_ g.to_ = none) :
    (p.register_gene g).find_gene g.from_ g.to_ = some g := by
  unfold innovation_pool.register_gene
  rw [h]
  unfold innovation_pool.find_gene at h ⊢
  simp only [List.find?_append, h, Option.none_or]
  simp [List.find?_cons]

lemma find_gene_registry_congr (p q : innovation_pool) (f t : Nat)
    (h : p.gene_registry = q.gene_registry) : p.find_gene f t = q.find_gene f t := by
  unfold innovation_pool.find_gene
  rw [h]

/-- Shape of a successful mutate_add_link: the genome gains exactly the
gene `addlink_gene p from to w` at the back of its gene list, and
afterwards the pool's canonical gene for (from, to) carries that gene's
innovation number. -/
lemma mutate_add_link_spec (g : genome) (p : innovation_pool) (fi ti : Nat) (w : ℚ)
    (h : (genome.mutate_add_link g p fi ti w).1 = true) :
    (genome.mutate_add_link g p fi ti w).2.1.m_genes
        = g.m_genes ++ [addlink_gene p (g.m_known_neuron_ids.getD fi 0)
            (g.m_known_neuron_ids.getD ti 0) w]
      ∧ ∃ e, (genome.mutate_add_link g p fi ti w).2.2.find_gene
              (g.m_known_neuron_ids.getD fi 0) (g.m_known_neuron_ids.getD ti 0)
            = some e
          ∧ e.innov_num = (addlink_gene p (g.m_known_neuron_ids.getD fi 0)
              (g.m_known_neuron_ids.getD ti 0) w).innov_num := by
  simp only [List.getD_eq_getElem?_getD] at h ⊢
  by_cases hl : g.link_exists (g.m_known_neuron_ids[fi]?.getD 0)
      (g.m_known_neuron_ids[ti]?.getD 0)
  · simp [genome.mutate_add_link, List.getD_eq_getElem?_getD, hl] at h
  · rcases hf : p.find_gene (g.m_known_neuron_ids[fi]?.getD 0)
        (g.m_known_neuron_ids[ti]?.getD 0) with _ | e
    · have key : genome.mutate_add_link g p fi ti w
          = (true,
             g.add_gene ⟨p.next_innov, g.m_known_neuron_ids[fi]?.getD 0,
               g.m_known_neuron_ids[ti]?.getD 0, w, true⟩,
             ((p.next_innovation.2.register_gene
                 ⟨p.next_innov, g.m_known_neuron_ids[fi]?.getD 0,
                  g.m_known_neuron_ids[ti]?.getD 0, w, true⟩).register_innovation
               (innovation.new_link_innovation p.next_innov
                 (g.m_known_neuron_ids[fi]?.getD 0)
                 (g.m_known_neuron_ids[ti]?.getD 0)))) := by
        simp [genome.mutate_add_link, List.getD_eq_getElem?_getD, hl, hf,
          innovation_pool.next_innovation]
      have hfind : p.next_innovation.2.find_gene (g.m_known_neuron_ids[fi]?.getD 0)
          (g.m_known_neuron_ids[ti]?.getD 0) = none := hf
      have halg : addlink_gene p (g.m_known_neuron_ids[fi]?.getD 0)
          (g.m_known_neuron_ids[ti]?.getD 0) w
          = ⟨p.next_innov, g.m_known_neuron_ids[fi]?.getD 0,
             g.m_known_neuron_ids[ti]?.getD 0, w, true⟩ := by
        simp [addlink_gene, hf]
      rw [key, halg]
      refine ⟨rfl, ⟨⟨p.next_innov, g.m_known_neuron_ids[fi]?.getD 0,
        g.m_known_neuron_ids[ti]?.getD 0, w, true⟩, ?_, rfl⟩⟩
      rw [find_gene_registry_congr _ _ _ _ (register_innovation_gene_registry _ _)]
      exact find_gene_register_self _ _ hfind
    · have key : genome.mutate_add_link g p fi ti w
          = (true, g.add_gene { e with weight := w }, p) := by
        simp [genome.mutate_add_link, List.getD_eq_getElem?_getD, hl, hf]
      have halg : addlink_gene p (g.m_known_neuron_ids[fi]?.getD 0)
          (g.m_known_neuron_ids[ti]?.getD 0) w = { e with weight := w } := by
        simp [addlink_gene, hf]
      rw [key, halg]
      exact ⟨rfl, ⟨e, hf, rfl⟩⟩

/-- C1.  Two add_link mutations performed on two genomes of the same run
(the innovation pool of the second call is the pool the first call
returned) that resolve to the same directed edge (from, to) and both
succeed append genes carrying the same innovation number: the first call
puts a canonical gene for the pair in the pool and the second call reuses
its innovation number, re-randomising only the weight. -/
theorem C1_add_link_innovation_reuse
    (g1 g2 : genome) (p : innovation_pool) (f1 t1 f2 t2 : Nat) (w1 w2 : ℚ)
    (hfrom : g2.m_known_neuron_ids.getD f2 0 = g1.m_known_neuron_ids.getD f1 0)
    (hto : g2.m_known_neuron_ids.getD t2 0 = g1.m_known_neuron_ids.getD t1 0)
    (h1 : (genome.mutate_add_link g1 p f1 t1 w1).1 = true)
    (h2 : (genome.mutate_add_link g2 (genome.mutate_add_link g1 p f1 t1 w1).2.2
            f2 t2 w2).1 = true) :
    ∃ a b,
      (genome.mutate_add_link g1 p f1 t1 w1).2.1.m_genes.getLast? = some a
      ∧ (genome.mutate_add_link g2 (genome.mutate_add_link g1 p f1 t1 w1).2.2
          f2 t2 w2).2.1.m_genes.getLast? = some b
      ∧ a.innov_num = b.innov_num := by
  obtain ⟨hg1, e, hfind, hinnov⟩ := mutate_add_link_spec g1 p f1 t1 w1 h1
  obtain ⟨hg2, _, _, _⟩ := mutate_add_link_spec g2 _ f2 t2 w2 h2
  refine ⟨_, _, by rw [hg1, List.getLast?_concat], by rw [hg2, List.getLast?_concat], ?_⟩
  rw [hfrom, hto]
  simp only [List.getD_eq_getElem?_getD] at hfind
  have : addlink_gene (genome.mutate_add_link g1 p f1 t1 w1).2.2
      (g1.m_known_neuron_ids.getD f1 0) (g1.m_known_neuron_ids.getD t1 0) w2
      = { e with weight := w2 } := by
    simp [addlink_gene, hfind]
  rw [this]
  exact hinnov.symm

/-- Witness for C1: a concrete run on two fresh one-input one-output
genomes; both add_link calls for the edge (1, 2) succeed and the two
appended genes carry the same innovation number. -/
theorem C1_witness :
    (genome.mutate_add_link (genome_ctor 1 1) ⟨0, 3, [], []⟩ 1 2 (1/2)).1 = true
    ∧ (genome.mutate_add_link (genome_ctor 1 1)
        (genome.mutate_add_link (genome_ctor 1 1) ⟨0, 3, [], []⟩ 1 2 (1/2)).2.2
        1 2 (3/4)).1 = true
    ∧ ∃ a b,
        (genome.mutate_add_link (genome_ctor 1 1)
          ⟨0, 3, [], []⟩ 1 2 (1/2)).2.1.m_genes.getLast? = some a
        ∧ (genome.mutate_add_link (genome_ctor 1 1)
            (genome.mutate_add_link (genome_ctor 1 1) ⟨0, 3, [], []⟩ 1 2 (1/2)).2.2
            1 2 (3/4)).2.1.m_genes.getLast? = some b
        ∧ a.innov_num = b.innov_num :=
  ⟨by decide, by decide,
   C1_add_link_innovation_reuse (genome_ctor 1 1) (genome_ctor 1 1) ⟨0, 3, [], []⟩
     1 2 1 2 (1/2) (3/4) rfl rfl (by decide) (by decide)⟩

/-- The else branch of genome::distance_to spelled out: when the larger
size exceeds 4 the distance is
`c1*excess/N + c2*disjoint/N + c3*(sum_weight_difference/nb_matching)`
with all counters taken from the merge walk. -/
lemma distance_to_formula (p : parameters) (a b : genome)
    (h : 4 < max a.m_genes.length b.m_genes.length) :
    genome.distance_to p a b
      = p.distance_coef_c1 * ((geneWalk a.m_genes b.m_genes).nb_excess_genes : ℚ)
          / (max a.m_genes.length b.m_genes.length : ℚ)
        + p.distance_coef_c2 * ((geneWalk a.m_genes b.m_genes).nb_disjoint_genes : ℚ)
          / (max a.m_genes.length b.m_genes.length : ℚ)
        + p.distance_coef_c3 * ((geneWalk a.m_genes b.m_genes).sum_weight_difference
            / ((geneWalk a.m_genes b.m_genes).nb_matching_genes : ℚ)) := by
  have h' : ¬ (max a.m_genes.length b.m_genes.length ≤ 4) := Nat.not_le.mpr h
  simp [genome.distance_to, h']

/-- C2 (counterexample).  On the spec's own scenario (A with innovations
{1,2,3,5,8}, B with {1,2,4,5,9,10}) the code does NOT classify
disjoint = {3,4} and excess = {8,9,10}: the merge walk of distance_to
counts innovation 8 as disjoint (it is consumed while B's iterator is
still alive), giving 3 disjoint and 2 excess genes. -/
theorem C2_counterexample :
    ¬ ((geneWalk c2A.m_genes c2B.m_genes).nb_disjoint_genes = 2
       ∧ (geneWalk c2A.m_genes c2B.m_genes).nb_excess_genes = 3) := by
  simp [geneWalk, c2A, c2B, c2gene]

/-- C2 (amended).  distance_to returns 0 whenever
N = max(|A.genes|, |B.genes|) ≤ 4 and otherwise returns
c1*excess/N + c2*disjoint/N + c3*avg_weight_diff with the counts of the
merge walk; on the worked example the walk yields matching {1,2,5},
disjoint {3,4,8} and excess {9,10} (not disjoint {3,4}, excess {8,9,10}),
and with all weights equal and c1 = c2 = c3 = 1 the distance is still
3/6 + 2/6 = 5/6. -/
theorem C2_distance_to_spec :
    (∀ (p : parameters) (a b : genome),
      max a.m_genes.length b.m_genes.length ≤ 4 → genome.distance_to p a b = 0)
    ∧ (∀ (p : parameters) (a b : genome),
        4 < max a.m_genes.length b.m_genes.length →
        genome.distance_to p a b
          = p.distance_coef_c1 * ((geneWalk a.m_genes b.m_genes).nb_excess_genes : ℚ)
              / (max a.m_genes.length b.m_genes.length : ℚ)
            + p.distance_coef_c2 * ((geneWalk a.m_genes b.m_genes).nb_disjoint_genes : ℚ)
              / (max a.m_genes.length b.m_genes.length : ℚ)
            + p.distance_coef_c3 * ((geneWalk a.m_genes b.m_genes).sum_weight_difference
                / ((geneWalk a.m_genes b.m_genes).nb_matching_genes : ℚ)))
    ∧ geneWalk c2A.m_genes c2B.m_genes = ⟨3, 3, 2, 0⟩
    ∧ genome.distance_to c2params c2A c2B = 5/6 := by
  refine ⟨?_, distance_to_formula, ?_, ?_⟩
  · intro p a b h
    simp [genome.distance_to, h]
  · simp [geneWalk, c2A, c2B, c2gene]
  · simp [genome.distance_to, geneWalk, c2A, c2B, c2gene, c2params]
    norm_num

/-- Witness for C2: the small-genome branch at a concrete input — two
fresh genomes have at most 4 genes, so their distance is 0. -/
theorem C2_witness :
    max (genome_ctor 1 1).m_genes.length (genome_ctor 1 1).m_genes.length ≤ 4
    ∧ genome.distance_to c2params (genome_ctor 1 1) (genome_ctor 1 1) = 0 :=
  ⟨by decide, C2_distance_to_spec.1 c2params (genome_ctor 1 1) (genome_ctor 1 1) (by decide)⟩

/-- When the two gene lists share no innovation number, the merge walk of
distance_to never takes the matching branch. -/
lemma geneWalk_matching_zero (xs ys : List gene)
    (h : ∀ a ∈ xs, ∀ b ∈ ys, a.innov_num ≠ b.innov_num) :
    (geneWalk xs ys).nb_matching_genes = 0 := by
  induction xs, ys using geneWalk.induct with
  | case1 ys => simp [geneWalk]
  | case2 x xs => simp [geneWalk]
  | case3 x xs y ys heq =>
    exact absurd heq (h x (List.mem_cons_self x xs) y (List.mem_cons_self y ys))
  | case4 x xs y ys hne hlt ih =>
    simp only [geneWalk, if_neg hne, if_pos hlt]
    exact ih fun a ha b hb => h a (List.mem_cons_of_mem _ ha) b hb
  | case5 x xs y ys hne hnlt ih =>
    simp only [geneWalk, if_neg hne, if_neg hnlt]
    exact ih fun a ha b hb => h a ha b (List.mem_cons_of_mem _ hb)

/-- C10.  For genomes whose larger gene-list size exceeds 4 (so the early
return of distance_to is not taken) and which share no innovation number,
the matching-gene counter is 0, and distance_to computes its average
weight difference as `sum_weight_difference / 0` — a division by zero in
the C++ double arithmetic; the computation is well-defined only under the
unstated precondition that some innovation number is shared. -/
theorem C10_distance_divides_by_zero (p : parameters) (a b : genome)
    (hsize : 4 < max a.m_genes.length b.m_genes.length)
    (hdisj : ∀ x ∈ a.m_genes, ∀ y ∈ b.m_genes, x.innov_num ≠ y.innov_num) :
    (geneWalk a.m_genes b.m_genes).nb_matching_genes = 0
    ∧ genome.distance_to p a b
      = p.distance_coef_c1 * ((geneWalk a.m_genes b.m_genes).nb_excess_genes : ℚ)
          / (max a.m_genes.length b.m_genes.length : ℚ)
        + p.distance_coef_c2 * ((geneWalk a.m_genes b.m_genes).nb_disjoint_genes : ℚ)
          / (max a.m_genes.length b.m_genes.length : ℚ)
        + p.distance_coef_c3 * ((geneWalk a.m_genes b.m_genes).sum_weight_difference
            / ((0 : ℕ) : ℚ)) := by
  have hm := geneWalk_matching_zero a.m_genes b.m_genes hdisj
  refine ⟨hm, ?_⟩
  rw [distance_to_formula p a b hsize, hm]

/-- Witness for C10: two concrete genomes with 5 and 6 genes and disjoint
innovation-number sets; the matching counter is 0. -/
theorem C10_witness :
    4 < max c10A.m_genes.length c10B.m_genes.length
    ∧ (∀ x ∈ c10A.m_genes, ∀ y ∈ c10B.m_genes, x.innov_num ≠ y.innov_num)
    ∧ (geneWalk c10A.m_genes c10B.m_genes).nb_matching_genes = 0 :=
  ⟨by decide, by decide,
   (C10_distance_divides_by_zero c2params c10A c10B (by decide) (by decide)).1⟩

/-- The retry loop makes at most `remaining + 1` further calls beyond the
`idx` already made. -/
lemma grm_loop_le (oc : Nat → Bool) :
    ∀ (rt idx : Nat), grm_loop oc idx rt ≤ idx + rt + 1 := by
  intro rt
  induction rt with
  | zero =>
    intro idx
    by_cases h : oc idx <;> simp [grm_loop, h]
  | succ r ih =>
    intro idx
    by_cases h : oc idx
    · simp [grm_loop, h]
    · simp only [grm_loop, h, Bool.false_eq_true, if_false]
      have := ih (idx + 1)
      omega

/-- C7.  The claim (and the comment at genome.cpp line 115, "let's give it
three tries") says genome::get_random_mutation makes at most three
attempts in total; the loop
`while (!offspring.random_mutate() && remaining_tries--)` with
`remaining_tries = 3` actually calls random_mutate four times when every
attempt fails (the post-decrement tests 3, 2, 1 and finally 0 after the
fourth failed call), and at most four times for every outcome oracle. -/
theorem C7_get_random_mutation_four_attempts :
    random_mutate_call_count (fun _ => false) = 4
    ∧ ∀ oc : Nat → Bool, random_mutate_call_count oc ≤ 4 := by
  constructor
  · rfl
  · intro oc
    exact grm_loop_le oc 3 0

/-- Invariant of the champion fold of base_neat::get_current_best_genome:
the final best value dominates every fitness in the list and the initial
value, and either the accumulator is untouched or the champion is an
element of the list carrying the final best value. -/
lemma best_foldl_spec (l : List genome) :
    ∀ (b : ℚ) (ch : Option genome),
      (∀ g ∈ l,
        g.m_fitness ≤ (l.foldl
          (fun acc geno => if geno.m_fitness > acc.1 then (geno.m_fitness, some geno) else acc)
          (b, ch)).1)
      ∧ b ≤ (l.foldl
          (fun acc geno => if geno.m_fitness > acc.1 then (geno.m_fitness, some geno) else acc)
          (b, ch)).1
      ∧ ((l.foldl
            (fun acc geno => if geno.m_fitness > acc.1 then (geno.m_fitness, some geno) else acc)
            (b, ch)) = (b, ch)
         ∨ ∃ c ∈ l, (l.foldl
            (fun acc geno => if geno.m_fitness > acc.1 then (geno.m_fitness, some geno) else acc)
            (b, ch)).2 = some c
            ∧ (l.foldl
              (fun acc geno => if geno.m_fitness > acc.1 then (geno.m_fitness, some geno) else acc)
              (b, ch)).1 = c.m_fitness) := by
  induction l with
  | nil => intro b ch; exact ⟨by simp, by simp, Or.inl rfl⟩
  | cons g l ih =>
    intro b ch
    by_cases h : g.m_fitness > b
    · obtain ⟨h1, h2, h3⟩ := ih g.m_fitness (some g)
      refine ⟨?_, ?_, ?_⟩
      · intro x hx
        rcases List.mem_cons.mp hx with rfl | hx'
        · simpa [h] using h2
        · simpa [h] using h1 x hx'
      · simp only [List.foldl_cons, if_pos h]
        exact le_of_lt (lt_of_lt_of_le h h2)
      · rcases h3 with heq | ⟨c, hc, hc2, hc3⟩
        · refine Or.inr ⟨g, List.mem_cons_self g l, ?_, ?_⟩
          · simp only [List.foldl_cons, if_pos h, heq]
          · simp only [List.foldl_cons, if_pos h, heq]
        · refine Or.inr ⟨c, List.mem_cons_of_mem _ hc, ?_, ?_⟩
          · simpa [h] using hc2
          · simpa [h] using hc3
    · obtain ⟨h1, h2, h3⟩ := ih b ch
      refine ⟨?_, by simpa [h] using h2, ?_⟩
      · intro x hx
        rcases List.mem_cons.mp hx with rfl | hx'
        · simp only [List.foldl_cons, if_neg h]
          exact le_trans (le_of_not_lt h) h2
        · simpa [h] using h1 x hx'
      · rcases h3 with heq | ⟨c, hc, hc2, hc3⟩
        · exact Or.inl (by simpa [h] using heq)
        · exact Or.inr ⟨c, List.mem_cons_of_mem _ hc, by simpa [h] using hc2,
            by simpa [h] using hc3⟩

/-- C8 (counterexample).  A non-empty population in which every fitness is
negative but equal to -DBL_MAX: the strict comparison against the initial
best `-1 * DBL_MAX` never fires, the champion pointer stays null, and the
function returns no genome (the C++ dereferences a null pointer), contrary
to the claim that every non-empty population yields a maximal genome. -/
theorem C8_counterexample :
    c8Pop ≠ [] ∧ get_current_best_genome c8Pop = none := by
  constructor
  · simp [c8Pop]
  · simp [get_current_best_genome, c8Pop]

/-- C8 (amended).  For every non-empty population containing at least one
genome whose fitness strictly exceeds -DBL_MAX (in particular any
population with ordinary negative fitness values), get_current_best_genome
returns a member of the population with maximal fitness; when every
fitness equals the sentinel -DBL_MAX the champion pointer remains null and
the C++ dereference is undefined. -/
theorem C8_current_best_genome_max (pop : List genome)
    (h : ∃ g ∈ pop, -1 * dblMax < g.m_fitness) :
    ∃ c, get_current_best_genome pop = some c ∧ c ∈ pop
      ∧ ∀ g ∈ pop, g.m_fitness ≤ c.m_fitness := by
  obtain ⟨g0, hg0, hgt⟩ := h
  obtain ⟨h1, h2, h3⟩ := best_foldl_spec pop (-1 * dblMax) none
  rcases h3 with heq | ⟨c, hc, hc2, hc3⟩
  · have : g0.m_fitness ≤ -1 * dblMax := by
      have := h1 g0 hg0
      rw [heq] at this
      exact this
    exact absurd hgt (not_lt.mpr this)
  · refine ⟨c, hc2, hc, ?_⟩
    intro g hg
    have := h1 g hg
    rw [hc3] at this
    exact this

/-- Witness for C8: a concrete all-negative population; the returned
champion is the genome with fitness -3. -/
theorem C8_witness :
    (∃ g ∈ c8Pop2, -1 * dblMax < g.m_fitness)
    ∧ ∃ c, get_current_best_genome c8Pop2 = some c ∧ c ∈ c8Pop2
        ∧ ∀ g ∈ c8Pop2, g.m_fitness ≤ c.m_fitness :=
  ⟨⟨⟨1, 1, [], [0, 1, 2], -5⟩, by simp [c8Pop2], by norm_num [dblMax]⟩,
   C8_current_best_genome_max c8Pop2
     ⟨⟨1, 1, [], [0, 1, 2], -5⟩, by simp [c8Pop2], by norm_num [dblMax]⟩⟩

/-- C6 (counterexample).  genome::mutate_add_neuron draws its gene
selection from a function-local `static std::mt19937` seeded by
std::random_device (genome.cpp lines 203-205), not from the driver-owned
generator; two runs that agree on every driver-generator draw but receive
different static-generator shuffles split different genes and produce
different genomes, refuting the claim that every random draw comes from
the single driver-owned generator. -/
theorem C6_counterexample :
    genome.mutate_add_neuron c6G c6P [0, 1] ≠ genome.mutate_add_neuron c6G c6P [1, 0] := by
  decide

/-- C6 (amended).  Not every random draw is taken from the driver-owned
generator: the add-neuron gene selection comes from a process-global
static generator (seeded from std::random_device), so there exist two
executions identical in everything except that static generator's shuffle
whose resulting genomes differ — fixed-seed epoch-by-epoch reproducibility
of best-ever fitness is not guaranteed by the code (the driver's own
generator is moreover seeded from the system clock, base_neat.cpp lines
24-25). -/
theorem C6_static_generator_breaks_determinism :
    ∃ (g : genome) (p : innovation_pool) (o1 o2 : List Nat),
      genome.mutate_add_neuron g p o1 ≠ genome.mutate_add_neuron g p o2 :=
  ⟨c6G, c6P, [0, 1], [1, 0], by decide⟩

/-- If the scan of the shuffled index list returns (i, sel), then sel is
the gene at index i and it is enabled. -/
lemma first_enabled_some (genes : List gene) (order : List Nat) (i : Nat) (sel : gene)
    (h : first_enabled genes order = some (i, sel)) :
    genes.get? i = some sel ∧ sel.enabled = true := by
  induction order with
  | nil => simp [first_enabled] at h
  | cons j rest ih =>
    unfold first_enabled at h
    rcases hg : genes.get? j with _ | ge
    · rw [hg] at h
      exact ih h
    · rw [hg] at h
      by_cases he : ge.enabled
      · simp only [he, if_true, Option.some.injEq, Prod.mk.injEq] at h
        obtain ⟨rfl, rfl⟩ := h
        exact ⟨hg, he⟩
      · simp only [he, Bool.false_eq_true, if_false] at h
        exact ih h

/-- When no gene is enabled the scan fails for every traversal order. -/
lemma first_enabled_none (genes : List gene) (order : List Nat)
    (h : ∀ ge ∈ genes, ge.enabled = false) :
    first_enabled genes order = none := by
  induction order with
  | nil => rfl
  | cons j rest ih =>
    unfold first_enabled
    rcases hg : genes.get? j with _ | ge
    · exact ih
    · have : ge.enabled = false := h ge (List.get?_mem hg)
      simp [this, ih]

/-- A found innovation record carries exactly the looked-up key. -/
lemma find_innovation_some (p : innovation_pool) (k : innov_type) (f t : Nat)
    (ex : innovation) (h : p.find_innovation k f t = some ex) :
    ex.type = k ∧ ex.from_ = f ∧ ex.to_ = t := by
  have := List.find?_some h
  simp only [Bool.and_eq_true, decide_eq_true_eq] at this
  exact ⟨this.1.1, this.1.2, this.2⟩

/-- C5.  A successful add_neuron mutation (the scan of the shuffled order
found an enabled gene sel at index i) disables that gene and appends
exactly two genes (sel.from, h) and (h, sel.to), both with the replaced
gene's weight, where h is the pool's recorded new_neuron_id when a
NewNeuron innovation for (from, to) already exists and the pool's fresh
hidden-neuron id otherwise; when no gene is enabled the mutation fails
and genome and pool are unchanged. -/
theorem C5_add_neuron_spec (g : genome) (p : innovation_pool) (order : List Nat) :
    (∀ i sel, first_enabled g.m_genes order = some (i, sel) →
      (genome.mutate_add_neuron g p order).1 = true
      ∧ g.m_genes.get? i = some sel ∧ sel.enabled = true
      ∧ ∃ hid i1 i2,
          (genome.mutate_add_neuron g p order).2.1.m_genes
            = modifyGene g.m_genes i (fun ge => { ge with enabled := false })
              ++ [⟨i1, sel.from_, hid, sel.weight, true⟩,
                  ⟨i2, hid, sel.to_, sel.weight, true⟩]
          ∧ (p.find_innovation innov_type.NEW_NEURON sel.from_ sel.to_ = none →
              hid = p.next_hidden)
          ∧ (∀ ex, p.find_innovation innov_type.NEW_NEURON sel.from_ sel.to_ = some ex →
              hid = ex.new_neuron_id))
    ∧ ((∀ ge ∈ g.m_genes, ge.enabled = false) →
        genome.mutate_add_neuron g p order = (false, g, p)) := by
  constructor
  · intro i sel h
    obtain ⟨hget, hen⟩ := first_enabled_some g.m_genes order i sel h
    rcases hf : p.find_innovation innov_type.NEW_NEURON sel.from_ sel.to_ with _ | ex
    · have key : genome.mutate_add_neuron g p order
          = (true,
             (({ g with m_genes := (modifyGene g.m_genes i
                  fun ge => { ge with enabled := false }) } : genome).add_gene
               ⟨p.next_innov, sel.from_, p.next_hidden, sel.weight, true⟩).add_gene
               ⟨p.next_innov + 1, p.next_hidden, sel.to_, sel.weight, true⟩,
             (genome.mutate_add_neuron g p order).2.2) := by
        simp only [genome.mutate_add_neuron, h, hf, innovation_pool.next_hidden_neuron_id,
          innovation_pool.next_innovation]
      refine ⟨by rw [key], hget, hen,
        ⟨p.next_hidden, p.next_innov, p.next_innov + 1, ?_, fun _ => rfl,
         fun ex2 hex2 => by simp at hex2⟩⟩
      rw [key]
      simp [genome.add_gene]
    · obtain ⟨htype, hfrom, hto⟩ := find_innovation_some p _ _ _ ex hf
      have key : genome.mutate_add_neuron g p order
          = (true,
             (({ g with m_genes := (modifyGene g.m_genes i
                  fun ge => { ge with enabled := false }) } : genome).add_gene
               ⟨ex.innov_num, ex.from_, ex.new_neuron_id, sel.weight, true⟩).add_gene
               ⟨ex.innov_num_2, ex.new_neuron_id, ex.to_, sel.weight, true⟩,
             p) := by
        simp only [genome.mutate_add_neuron, h, hf]
      refine ⟨by rw [key], hget, hen,
        ⟨ex.new_neuron_id, ex.innov_num, ex.innov_num_2, ?_,
         fun hnone => by simp at hnone,
         fun ex2 hex2 => Option.some.inj hex2 ▸ rfl⟩⟩
      rw [key]
      simp [genome.add_gene, hfrom, hto]
  · intro hall
    simp [genome.mutate_add_neuron, first_enabled_none g.m_genes order hall]

/-- Witness for C5: on the concrete genome c6G with traversal order [0, 1]
the scan selects the enabled gene (1, 0, 2) at index 0 and the mutation
succeeds. -/
theorem C5_witness :
    first_enabled c6G.m_genes [0, 1] = some (0, ⟨1, 0, 2, 1, true⟩)
    ∧ (genome.mutate_add_neuron c6G c6P [0, 1]).1 = true :=
  ⟨by decide, ((C5_add_neuron_spec c6G c6P [0, 1]).1 0 ⟨1, 0, 2, 1, true⟩ (by decide)).1⟩

/-- Every member of the left list of a Forall-two relation has a related
member on the right. -/
lemma forall2_exists_mem {α β : Type} {R : α → β → Prop}
    {l' : List α} {l : List β} (h : List.Forall₂ R l' l) :
    ∀ b ∈ l', ∃ a ∈ l, R b a := by
  induction h with
  | nil => simp
  | cons hR htail ih =>
    intro b hb
    rcases List.mem_cons.mp hb with rfl | hb'
    · exact ⟨_, List.mem_cons_self _ _, hR⟩
    · obtain ⟨a, ha, hra⟩ := ih b hb'
      exact ⟨a, List.mem_cons_of_mem _ ha, hra⟩

/-- mutate_all_weights changes only weights: shapes are preserved
pointwise. -/
lemma forall2_perturb_all (d : Nat → ℚ) (l : List gene) :
    List.Forall₂ gene_shape_eq (perturb_all d l) l := by
  induction l generalizing d with
  | nil => exact List.Forall₂.nil
  | cons x xs ih =>
    exact List.Forall₂.cons ⟨rfl, rfl, rfl⟩ (ih _)

/-- mutate_reset_weights changes only weights: shapes are preserved
pointwise. -/
lemma forall2_reset_all (d : Nat → ℚ) (l : List gene) :
    List.Forall₂ gene_shape_eq (reset_all d l) l := by
  induction l generalizing d with
  | nil => exact List.Forall₂.nil
  | cons x xs ih =>
    exact List.Forall₂.cons ⟨rfl, rfl, rfl⟩ (ih _)

/-- An in-place update by a shape-preserving function preserves shapes
pointwise. -/
lemma forall2_modifyGene (l : List gene) (i : Nat) (f : gene → gene)
    (hf : ∀ y, gene_shape_eq (f y) y) :
    List.Forall₂ gene_shape_eq (modifyGene l i f) l := by
  induction l generalizing i with
  | nil => exact List.Forall₂.nil
  | cons x xs ih =>
    cases i with
    | zero => exact List.Forall₂.cons (hf x) (List.forall₂_same.mpr fun y _ => ⟨rfl, rfl, rfl⟩)
    | succ n => exact List.Forall₂.cons ⟨rfl, rfl, rfl⟩ (ih n)

/-- A pointwise shape-preserving transformation preserves sortedness by
innovation number. -/
lemma sorted_of_forall2 {l' l : List gene}
    (h : List.Forall₂ gene_shape_eq l' l) (hs : sorted_by_innov l) :
    sorted_by_innov l' := by
  induction h with
  | nil => exact List.Pairwise.nil
  | cons hR htail ih =>
    rw [sorted_by_innov, List.pairwise_cons] at hs ⊢
    refine ⟨?_, ih hs.2⟩
    intro b' hb'
    obtain ⟨a, ha, hshape⟩ := forall2_exists_mem htail b' hb'
    rw [hR.1, hshape.1]
    exact hs.1 a ha

/-- Replacing the gene list by one whose members all share shape with an
existing gene keeps the known-endpoints invariant (the known list is
unchanged). -/
lemma ek_update (g : genome) (l' : List gene) (h : endpoints_known g)
    (hmem : ∀ x ∈ l', ∃ y ∈ g.m_genes, gene_shape_eq x y) :
    endpoints_known { g with m_genes := l' } := by
  intro x hx
  obtain ⟨y, hy, hs⟩ := hmem x hx
  obtain ⟨h1, h2⟩ := h y hy
  exact ⟨hs.2.1 ▸ h1, hs.2.2 ▸ h2⟩

/-- add_gene only ever extends the known-neuron list. -/
lemma add_gene_known_superset (g : genome) (ge : gene) (a : Nat)
    (h : a ∈ g.m_known_neuron_ids) : a ∈ (g.add_gene ge).m_known_neuron_ids := by
  unfold genome.add_gene
  dsimp only
  split <;> split <;> simp [h]

/-- After add_gene both endpoints of the added gene are known. -/
lemma add_gene_endpoints_mem (g : genome) (ge : gene) :
    ge.from_ ∈ (g.add_gene ge).m_known_neuron_ids
    ∧ ge.to_ ∈ (g.add_gene ge).m_known_neuron_ids := by
  unfold genome.add_gene
  dsimp only
  constructor
  · split <;> split <;> simp_all
  · split <;> split <;> simp_all

/-- add_gene preserves the known-endpoints invariant. -/
lemma endpoints_known_add_gene (g : genome) (ge : gene)
    (h : endpoints_known g) : endpoints_known (g.add_gene ge) := by
  intro x hx
  have hgenes : (g.add_gene ge).m_genes = g.m_genes ++ [ge] := rfl
  rw [hgenes, List.mem_append] at hx
  rcases hx with hx | hx
  · obtain ⟨h1, h2⟩ := h x hx
    exact ⟨add_gene_known_superset g ge _ h1, add_gene_known_superset g ge _ h2⟩
  · rw [List.mem_singleton] at hx
    subst hx
    exact add_gene_endpoints_mem g x

/-- add_gene appends at the back, so sortedness is preserved exactly when
the appended innovation number dominates the existing ones. -/
lemma sorted_add_gene (g : genome) (ge : gene)
    (hs : sorted_by_innov g.m_genes)
    (hd : ∀ x ∈ g.m_genes, x.innov_num ≤ ge.innov_num) :
    sorted_by_innov (g.add_gene ge).m_genes := by
  have hgenes : (g.add_gene ge).m_genes = g.m_genes ++ [ge] := rfl
  rw [hgenes, sorted_by_innov, List.pairwise_append]
  exact ⟨hs, List.pairwise_singleton _ _, fun a ha b hb => by
    rw [List.mem_singleton] at hb
    exact hb ▸ hd a ha⟩

/-- mutate_add_link either fails (genome unchanged) or appends the
canonical-or-fresh gene for the resolved pair. -/
lemma mutate_add_link_genome_cases (g : genome) (p : innovation_pool) (fi ti : Nat) (w : ℚ) :
    (genome.mutate_add_link g p fi ti w).2.1 = g
    ∨ (genome.mutate_add_link g p fi ti w).2.1
        = g.add_gene (addlink_gene p (g.m_known_neuron_ids.getD fi 0)
            (g.m_known_neuron_ids.getD ti 0) w) := by
  by_cases hl : g.link_exists (g.m_known_neuron_ids.getD fi 0)
      (g.m_known_neuron_ids.getD ti 0)
  · left
    simp only [List.getD_eq_getElem?_getD] at hl
    simp [genome.mutate_add_link, hl]
  · right
    simp only [List.getD_eq_getElem?_getD] at hl ⊢
    rcases hf : p.find_gene (g.m_known_neuron_ids[fi]?.getD 0)
        (g.m_known_neuron_ids[ti]?.getD 0) with _ | e
    · simp [genome.mutate_add_link, List.getD_eq_getElem?_getD, hl, hf, addlink_gene,
        innovation_pool.next_innovation]
    · simp [genome.mutate_add_link, List.getD_eq_getElem?_getD, hl, hf, addlink_gene]

/-- mutate_add_neuron with no enabled gene leaves the genome unchanged. -/
lemma mutate_add_neuron_genome_none (g : genome) (p : innovation_pool) (order : List Nat)
    (h : first_enabled g.m_genes order = none) :
    (genome.mutate_add_neuron g p order).2.1 = g := by
  simp [genome.mutate_add_neuron, h]

/-- Shape of the genome a successful mutate_add_neuron produces: the
selected gene disabled in place, then the two split genes appended. -/
lemma mutate_add_neuron_genome_some (g : genome) (p : innovation_pool) (order : List Nat)
    (i : Nat) (sel : gene) (h : first_enabled g.m_genes order = some (i, sel)) :
    (genome.mutate_add_neuron g p order).2.1
      = (({ g with m_genes := (modifyGene g.m_genes i
            fun ge => { ge with enabled := false }) } : genome).add_gene
          ⟨addneuron_i1 p sel, sel.from_, addneuron_hid p sel, sel.weight, true⟩).add_gene
          ⟨addneuron_i2 p sel, addneuron_hid p sel, sel.to_, sel.weight, true⟩ := by
  rcases hf : p.find_innovation innov_type.NEW_NEURON sel.from_ sel.to_ with _ | ex
  · simp [genome.mutate_add_neuron, h, hf, addneuron_i1, addneuron_i2, addneuron_hid,
      innovation_pool.next_hidden_neuron_id, innovation_pool.next_innovation]
  · obtain ⟨htype, hfrom, hto⟩ := find_innovation_some p _ _ _ ex hf
    simp only [genome.mutate_add_neuron, h, hf, addneuron_i1, addneuron_i2, addneuron_hid]
    rw [hfrom, hto]

/-- C3 (amended).  After every mutation the known-neurons list remains a
superset of all gene endpoints; the gene list stays sorted by innovation
number under one_weight, all_weights, reset_weights, remove_gene,
reenable_gene and toggle_enable unconditionally, and under add_link /
add_neuron exactly when the appended innovation numbers dominate the
genome's existing ones (true for fresh allocations from a monotone pool,
violable when an older canonical innovation is reused, see the
counterexample). -/
theorem C3_mutation_invariants :
    (∀ (g : genome) (p : innovation_pool) (fi ti : Nat) (w : ℚ), endpoints_known g →
      endpoints_known (genome.mutate_add_link g p fi ti w).2.1)
    ∧ (∀ (g : genome) (p : innovation_pool) (fi ti : Nat) (w : ℚ),
        sorted_by_innov g.m_genes →
        (∀ x ∈ g.m_genes, x.innov_num ≤ (addlink_gene p (g.m_known_neuron_ids.getD fi 0)
            (g.m_known_neuron_ids.getD ti 0) w).innov_num) →
        sorted_by_innov (genome.mutate_add_link g p fi ti w).2.1.m_genes)
    ∧ (∀ (g : genome) (p : innovation_pool) (order : List Nat), endpoints_known g →
        endpoints_known (genome.mutate_add_neuron g p order).2.1)
    ∧ (∀ (g : genome) (p : innovation_pool) (order : List Nat),
        sorted_by_innov g.m_genes →
        (∀ i sel, first_enabled g.m_genes order = some (i, sel) →
          (∀ x ∈ g.m_genes, x.innov_num ≤ addneuron_i1 p sel)
          ∧ addneuron_i1 p sel ≤ addneuron_i2 p sel) →
        sorted_by_innov (genome.mutate_add_neuron g p order).2.1.m_genes)
    ∧ (∀ (g : genome) (idx : Nat) (δ : ℚ), endpoints_known g →
        endpoints_known (genome.mutate_one_weight g idx δ).2)
    ∧ (∀ (g : genome) (idx : Nat) (δ : ℚ), sorted_by_innov g.m_genes →
        sorted_by_innov (genome.mutate_one_weight g idx δ).2.m_genes)
    ∧ (∀ (g : genome) (d : Nat → ℚ), endpoints_known g →
        endpoints_known (genome.mutate_all_weights g d).2)
    ∧ (∀ (g : genome) (d : Nat → ℚ), sorted_by_innov g.m_genes →
        sorted_by_innov (genome.mutate_all_weights g d).2.m_genes)
    ∧ (∀ (g : genome) (d : Nat → ℚ), endpoints_known g →
        endpoints_known (genome.mutate_reset_weights g d).2)
    ∧ (∀ (g : genome) (d : Nat → ℚ), sorted_by_innov g.m_genes →
        sorted_by_innov (genome.mutate_reset_weights g d).2.m_genes)
    ∧ (∀ (g : genome) (idx : Nat), endpoints_known g →
        endpoints_known (genome.mutate_remove_gene g idx).2)
    ∧ (∀ (g : genome) (idx : Nat), sorted_by_innov g.m_genes →
        sorted_by_innov (genome.mutate_remove_gene g idx).2.m_genes)
    ∧ (∀ (g : genome) (k : Nat), endpoints_known g →
        endpoints_known (genome.mutate_reenable_gene g k).2)
    ∧ (∀ (g : genome) (k : Nat), sorted_by_innov g.m_genes →
        sorted_by_innov (genome.mutate_reenable_gene g k).2.m_genes)
    ∧ (∀ (g : genome) (idx : Nat), endpoints_known g →
        endpoints_known (genome.mutate_toggle_enable g idx).2)
    ∧ (∀ (g : genome) (idx : Nat), sorted_by_innov g.m_genes →
        sorted_by_innov (genome.mutate_toggle_enable g idx).2.m_genes) := by
  have hshape : ∀ b : Bool, ∀ y : gene, gene_shape_eq { y with enabled := b } y :=
    fun _ _ => ⟨rfl, rfl, rfl⟩
  refine ⟨?_, ?_, ?_, ?_, ?_, ?_, ?_, ?_, ?_, ?_, ?_, ?_, ?_, ?_, ?_, ?_⟩
  · intro g p fi ti w h
    rcases mutate_add_link_genome_cases g p fi ti w with hc | hc <;> rw [hc]
    · exact h
    · exact endpoints_known_add_gene _ _ h
  · intro g p fi ti w hs hd
    rcases mutate_add_link_genome_cases g p fi ti w with hc | hc <;> rw [hc]
    · exact hs
    · exact sorted_add_gene _ _ hs hd
  · intro g p order h
    rcases hfe : first_enabled g.m_genes order with _ | ⟨i, sel⟩
    · rw [mutate_add_neuron_genome_none _ _ _ hfe]
      exact h
    · rw [mutate_add_neuron_genome_some _ _ _ _ _ hfe]
      exact endpoints_known_add_gene _ _ (endpoints_known_add_gene _ _
        (ek_update g _ h (forall2_exists_mem
          (forall2_modifyGene _ _ _ fun y => ⟨rfl, rfl, rfl⟩))))
  · intro g p order hs hdom
    rcases hfe : first_enabled g.m_genes order with _ | ⟨i, sel⟩
    · rw [mutate_add_neuron_genome_none _ _ _ hfe]
      exact hs
    · rw [mutate_add_neuron_genome_some _ _ _ _ _ hfe]
      obtain ⟨hd1, hd12⟩ := hdom i sel hfe
      have hmem := forall2_exists_mem (forall2_modifyGene g.m_genes i
        (fun ge => { ge with enabled := false }) fun y => ⟨rfl, rfl, rfl⟩)
      apply sorted_add_gene
      · apply sorted_add_gene
        · exact sorted_of_forall2 (forall2_modifyGene _ _ _ fun y => ⟨rfl, rfl, rfl⟩) hs
        · intro x hx
          obtain ⟨y, hy, hsh⟩ := hmem x hx
          rw [hsh.1]
          exact hd1 y hy
      · intro x hx
        have hx' : x ∈ (modifyGene g.m_genes i fun ge => { ge with enabled := false })
            ++ [⟨addneuron_i1 p sel, sel.from_, addneuron_hid p sel, sel.weight, true⟩] := hx
        rw [List.mem_append] at hx'
        rcases hx' with hx' | hx'
        · obtain ⟨y, hy, hsh⟩ := hmem x hx'
          rw [hsh.1]
          exact le_trans (hd1 y hy) hd12
        · rw [List.mem_singleton] at hx'
          rw [hx']
          exact hd12
  · intro g idx δ h
    by_cases he : g.m_genes.isEmpty
    · simpa [genome.mutate_one_weight, he] using h
    · simp only [genome.mutate_one_weight, he, Bool.false_eq_true, if_false]
      exact ek_update g _ h (forall2_exists_mem
        (forall2_modifyGene _ _ _ fun y => ⟨rfl, rfl, rfl⟩))
  · intro g idx δ hs
    by_cases he : g.m_genes.isEmpty
    · simpa [genome.mutate_one_weight, he] using hs
    · simp only [genome.mutate_one_weight, he, Bool.false_eq_true, if_false]
      exact sorted_of_forall2 (forall2_modifyGene _ _ _ fun y => ⟨rfl, rfl, rfl⟩) hs
  · intro g d h
    exact ek_update g _ h (forall2_exists_mem (forall2_perturb_all d g.m_genes))
  · intro g d hs
    exact sorted_of_forall2 (forall2_perturb_all d g.m_genes) hs
  · intro g d h
    exact ek_update g _ h (forall2_exists_mem (forall2_reset_all d g.m_genes))
  · intro g d hs
    exact sorted_of_forall2 (forall2_reset_all d g.m_genes) hs
  · intro g idx h
    by_cases he : g.m_genes.isEmpty
    · simpa [genome.mutate_remove_gene, he] using h
    · simp only [genome.mutate_remove_gene, he, Bool.false_eq_true, if_false]
      intro x hx
      exact h x ((List.eraseIdx_sublist g.m_genes idx).subset hx)
  · intro g idx hs
    by_cases he : g.m_genes.isEmpty
    · simpa [genome.mutate_remove_gene, he] using hs
    · simp only [genome.mutate_remove_gene, he, Bool.false_eq_true, if_false]
      exact List.Pairwise.sublist (List.eraseIdx_sublist g.m_genes idx) hs
  · intro g k h
    by_cases he : (disabled_indices g.m_genes 0).isEmpty
    · simpa [genome.mutate_reenable_gene, he] using h
    · simp only [genome.mutate_reenable_gene, he, Bool.false_eq_true, if_false]
      exact ek_update g _ h (forall2_exists_mem
        (forall2_modifyGene _ _ _ fun y => ⟨rfl, rfl, rfl⟩))
  · intro g k hs
    by_cases he : (disabled_indices g.m_genes 0).isEmpty
    · simpa [genome.mutate_reenable_gene, he] using hs
    · simp only [genome.mutate_reenable_gene, he, Bool.false_eq_true, if_false]
      exact sorted_of_forall2 (forall2_modifyGene _ _ _ fun y => ⟨rfl, rfl, rfl⟩) hs
  · intro g idx h
    by_cases he : g.m_genes.isEmpty
    · simpa [genome.mutate_toggle_enable, he] using h
    · simp only [genome.mutate_toggle_enable, he, Bool.false_eq_true, if_false]
      exact ek_update g _ h (forall2_exists_mem
        (forall2_modifyGene _ _ _ fun y => ⟨rfl, rfl, rfl⟩))
  · intro g idx hs
    by_cases he : g.m_genes.isEmpty
    · simpa [genome.mutate_toggle_enable, he] using hs
    · simp only [genome.mutate_toggle_enable, he, Bool.false_eq_true, if_false]
      exact sorted_of_forall2 (forall2_modifyGene _ _ _ fun y => ⟨rfl, rfl, rfl⟩) hs

/-- C3 (counterexample).  A sorted genome holding only innovation 11 whose
pool already records the canonical gene (1, 3) with the older innovation
10: add_link for (1, 3) succeeds, appends innovation 10 after 11
(genome.cpp lines 178-183 append via add_gene, never insert by order),
and the gene list is no longer sorted by innovation number. -/
theorem C3_counterexample :
    sorted_by_innov c3G.m_genes ∧ endpoints_known c3G
    ∧ ¬ sorted_by_innov (genome.mutate_add_link c3G c3P 1 3 0).2.1.m_genes := by
  decide

/-- Witness for C3: a concrete add_link whose fresh innovation number
dominates the genome; both invariants hold afterwards. -/
theorem C3_witness :
    sorted_by_innov c3W.m_genes
    ∧ (∀ x ∈ c3W.m_genes, x.innov_num ≤ (addlink_gene c6P
        (c3W.m_known_neuron_ids.getD 1 0) (c3W.m_known_neuron_ids.getD 2 0) 1).innov_num)
    ∧ endpoints_known (genome.mutate_add_link c3W c6P 1 2 1).2.1
    ∧ sorted_by_innov (genome.mutate_add_link c3W c6P 1 2 1).2.1.m_genes :=
  ⟨by decide, by decide,
   C3_mutation_invariants.1 c3W c6P 1 2 1 (by decide),
   C3_mutation_invariants.2.1 c3W c6P 1 2 1 (by decide) (by decide)⟩

/-- Reading back a serialised gene restores it exactly. -/
lemma des_gene_roundtrip (g : gene) (r : List sval) :
    des_gene (serialize_gene g ++ r) = some (g, r) := rfl

/-- Reading back a serialised member id restores it exactly. -/
lemma des_member_roundtrip (m : Nat) (r : List sval) :
    des_member ([sval.nat m] ++ r) = some (m, r) := rfl

/-- Reading back a serialised innovation record restores it exactly. -/
lemma des_innovation_roundtrip (rec : innovation) (r : List sval) :
    des_innovation (serialize_innovation rec ++ r) = some (rec, r) := by
  cases htype : rec.type <;>
    simp [serialize_innovation, des_innovation, innov_type.code, htype] <;>
    rw [← htype]

/-- Reading back a count-prefixed serialised list restores a list related
item by item by the single-item round-trip relation. -/
lemma des_list_roundtrip {α β : Type} (ser : α → List sval)
    (p : List sval → Option (β × List sval)) (R : α → β → Prop)
    (hp : ∀ a r, ∃ b, p (ser a ++ r) = some (b, r) ∧ R a b) :
    ∀ (l : List α) (r : List sval), ∃ bl,
      des_list p l.length (ser_list ser l ++ r) = some (bl, r)
      ∧ List.Forall₂ R l bl := by
  intro l
  induction l with
  | nil => exact fun r => ⟨[], rfl, List.Forall₂.nil⟩
  | cons a l ih =>
    intro r
    obtain ⟨b, hb, hrb⟩ := hp a (ser_list ser l ++ r)
    obtain ⟨bl, hbl, hrbl⟩ := ih r
    refine ⟨b :: bl, ?_, List.Forall₂.cons hrb hrbl⟩
    have hassoc : ser_list ser (a :: l) ++ r = ser a ++ (ser_list ser l ++ r) := by
      simp [ser_list]
    rw [List.length_cons]
    unfold des_list
    rw [hassoc, hb]
    simp [hbl]

/-- Installing genes through add_gene appends them in order and leaves
input / output counts unchanged. -/
lemma foldl_add_gene_fields :
    ∀ (gs : List gene) (g0 : genome),
      (gs.foldl genome.add_gene g0).m_genes = g0.m_genes ++ gs
      ∧ (gs.foldl genome.add_gene g0).m_number_of_inputs = g0.m_number_of_inputs
      ∧ (gs.foldl genome.add_gene g0).m_number_of_outputs = g0.m_number_of_outputs := by
  intro gs
  induction gs with
  | nil => exact fun g0 => ⟨by simp, rfl, rfl⟩
  | cons ge gs ih =>
    intro g0
    obtain ⟨h1, h2, h3⟩ := ih (g0.add_gene ge)
    refine ⟨?_, by simpa using h2, by simpa using h3⟩
    rw [List.foldl_cons, h1]
    have : (g0.add_gene ge).m_genes = g0.m_genes ++ [ge] := rfl
    rw [this]
    simp

/-- Reading back a serialised genome restores its gene list, fitness and
layer sizes (the known-neuron list is rebuilt from the endpoints). -/
lemma des_genome_roundtrip (g : genome) (r : List sval) :
    ∃ g', des_genome (serialize_genome g ++ r) = some (g', r)
      ∧ g'.m_genes = g.m_genes
      ∧ g'.m_fitness = g.m_fitness
      ∧ g'.m_number_of_inputs = g.m_number_of_inputs
      ∧ g'.m_number_of_outputs = g.m_number_of_outputs := by
  obtain ⟨gl, hgl, hfor⟩ := des_list_roundtrip serialize_gene des_gene Eq
    (fun a r => ⟨a, des_gene_roundtrip a r, rfl⟩) g.m_genes r
  have hgl' : g.m_genes = gl := by
    rw [List.forall₂_eq_eq_eq] at hfor
    exact hfor
  rw [← hgl'] at hgl
  obtain ⟨h1, h2, h3⟩ := foldl_add_gene_fields g.m_genes (genome_ctor g.m_number_of_inputs
    g.m_number_of_outputs)
  refine ⟨{ g.m_genes.foldl genome.add_gene (genome_ctor g.m_number_of_inputs
      g.m_number_of_outputs) with m_fitness := g.m_fitness }, ?_, ?_, rfl, ?_, ?_⟩
  · show des_genome (sval.nat g.m_number_of_inputs :: sval.nat g.m_number_of_outputs ::
      sval.rat g.m_fitness :: sval.nat g.m_genes.length :: (ser_list serialize_gene g.m_genes ++ r))
        = _
    simp [des_genome, hgl]
  · simpa [genome_ctor] using h1
  · simpa using h2
  · simpa using h3

/-- Reading back a serialised innovation pool restores it exactly. -/
lemma des_innovation_pool_roundtrip (p : innovation_pool) (r : List sval) :
    des_innovation_pool (serialize_innovation_pool p ++ r) = some (p, r) := by
  obtain ⟨gl, hgl, hgfor⟩ := des_list_roundtrip serialize_gene des_gene Eq
    (fun a r => ⟨a, des_gene_roundtrip a r, rfl⟩) p.gene_registry
    (sval.nat p.innovation_registry.length ::
      (ser_list serialize_innovation p.innovation_registry ++ r))
  obtain ⟨il, hil, hifor⟩ := des_list_roundtrip serialize_innovation des_innovation Eq
    (fun a r => ⟨a, des_innovation_roundtrip a r, rfl⟩) p.innovation_registry r
  rw [List.forall₂_eq_eq_eq] at hgfor hifor
  subst hgfor
  subst hifor
  simp [des_innovation_pool, serialize_innovation_pool, List.append_assoc, hgl, hil]

/-- Reading back a serialised species restores all scalar fields, the
member list, and the representant's gene list and fitness. -/
lemma des_species_roundtrip (sp : species) (r : List sval) :
    ∃ sp', des_species (serialize_species sp ++ r) = some (sp', r)
      ∧ sp'.id = sp.id ∧ sp'.members = sp.members ∧ sp'.age = sp.age
      ∧ sp'.stagnation_counter = sp.stagnation_counter
      ∧ sp'.best_fitness_ever_in_species = sp.best_fitness_ever_in_species
      ∧ sp'.adjusted_fitness_sum = sp.adjusted_fitness_sum
      ∧ sp'.representant.m_genes = sp.representant.m_genes
      ∧ sp'.representant.m_fitness = sp.representant.m_fitness := by
  obtain ⟨rep', hrep, hg1, hg2, _, _⟩ := des_genome_roundtrip sp.representant
    (sval.nat sp.members.length ::
      (ser_list (fun m => [sval.nat m]) sp.members
        ++ ([sval.nat sp.age, sval.nat sp.stagnation_counter,
             sval.rat sp.best_fitness_ever_in_species,
             sval.rat sp.adjusted_fitness_sum] ++ r)))
  obtain ⟨ms, hms, hmfor⟩ := des_list_roundtrip (fun m => [sval.nat m]) des_member Eq
    (fun a r => ⟨a, rfl, rfl⟩) sp.members
    ([sval.nat sp.age, sval.nat sp.stagnation_counter,
      sval.rat sp.best_fitness_ever_in_species, sval.rat sp.adjusted_fitness_sum] ++ r)
  rw [List.forall₂_eq_eq_eq] at hmfor
  subst hmfor
  refine ⟨⟨sp.id, rep', sp.members, sp.age, sp.stagnation_counter,
    sp.best_fitness_ever_in_species, sp.adjusted_fitness_sum⟩, ?_, rfl, rfl, rfl, rfl,
    rfl, rfl, hg1, hg2⟩
  simp only [List.cons_append, List.nil_append, List.append_assoc] at hrep hms
  simp [des_species, serialize_species, List.append_assoc, hrep, hms]

/-- Full driver round trip: serialising a state and deserialising the
stream into a fresh driver restores next-species-id, age, the species
list (field by field), the library gene lists, and the pool; the
compatibility threshold is installed only under the dynamic flag, and the
best-ever and library genomes come back MOVE constructed, so their
fitness is 0. -/
lemma roundtrip_base_neat (s fresh : base_neat_state) :
    ∃ s', helper_deserialize_base_neat fresh (helper_serialize_base_neat s) = some s'
      ∧ s'.m_next_species_id = s.m_next_species_id
      ∧ s'.m_age_of_best_genome_ever = s.m_age_of_best_genome_ever
      ∧ s'.params.compatibility_threshold
          = (if fresh.params.dynamic_compatibility_threshold
             then s.params.compatibility_threshold
             else fresh.params.compatibility_threshold)
      ∧ List.Forall₂ (fun a b => species.id b = species.id a
          ∧ species.members b = species.members a
          ∧ species.age b = species.age a
          ∧ species.stagnation_counter b = species.stagnation_counter a
          ∧ species.best_fitness_ever_in_species b = species.best_fitness_ever_in_species a
          ∧ species.adjusted_fitness_sum b = species.adjusted_fitness_sum a
          ∧ (species.representant b).m_genes = (species.representant a).m_genes
          ∧ (species.representant b).m_fitness = (species.representant a).m_fitness)
          s.m_all_species s'.m_all_species
      ∧ List.Forall₂ (fun a b => genome.m_genes b = genome.m_genes a
          ∧ genome.m_fitness b = 0)
          s.m_best_genomes_library s'.m_best_genomes_library
      ∧ (s.m_best_genome_ever = none → s'.m_best_genome_ever = fresh.m_best_genome_ever)
      ∧ (∀ b, s.m_best_genome_ever = some b →
          ∃ b', s'.m_best_genome_ever = some b' ∧ b'.m_genes = b.m_genes
            ∧ b'.m_fitness = 0)
      ∧ s'.innov_pool = s.innov_pool := by
  obtain ⟨sps', hsps, hspfor⟩ := des_list_roundtrip serialize_species des_species
    (fun a b => b.id = a.id ∧ b.members = a.members ∧ b.age = a.age
      ∧ b.stagnation_counter = a.stagnation_counter
      ∧ b.best_fitness_ever_in_species = a.best_fitness_ever_in_species
      ∧ b.adjusted_fitness_sum = a.adjusted_fitness_sum
      ∧ b.representant.m_genes = a.representant.m_genes
      ∧ b.representant.m_fitness = a.representant.m_fitness)
    (fun a r => by
      obtain ⟨sp', h, p1, p2, p3, p4, p5, p6, p7, p8⟩ := des_species_roundtrip a r
      exact ⟨sp', h, p1, p2, p3, p4, p5, p6, p7, p8⟩)
    s.m_all_species
    (sval.nat s.m_best_genomes_library.length ::
      (ser_list serialize_genome s.m_best_genomes_library
        ++ serialize_innovation_pool s.innov_pool))
  obtain ⟨libgs, hlib, hlibfor⟩ := des_list_roundtrip serialize_genome des_genome
    (fun a b => b.m_genes = a.m_genes ∧ b.m_fitness = a.m_fitness)
    (fun a r => by
      obtain ⟨g', h, p1, p2, _, _⟩ := des_genome_roundtrip a r
      exact ⟨g', h, p1, p2⟩)
    s.m_best_genomes_library (serialize_innovation_pool s.innov_pool)
  have hpool := des_innovation_pool_roundtrip s.innov_pool ([] : List sval)
  rw [List.append_nil] at hpool
  have hlibmap : List.Forall₂ (fun a b => genome.m_genes b = genome.m_genes a
      ∧ genome.m_fitness b = 0) s.m_best_genomes_library
      (libgs.map genome.move_construct) := by
    rw [List.forall₂_map_right_iff]
    exact hlibfor.imp fun a b h => ⟨h.1, rfl⟩
  rcases hbest : s.m_best_genome_ever with _ | b
  · refine ⟨{
      params := (if fresh.params.dynamic_compatibility_threshold then
          { fresh.params with compatibility_threshold := s.params.compatibility_threshold }
        else fresh.params)
      m_next_species_id := s.m_next_species_id
      m_age_of_best_genome_ever := s.m_age_of_best_genome_ever
      m_best_genome_ever := fresh.m_best_genome_ever
      m_all_species := sps'
      m_best_genomes_library := libgs.map genome.move_construct
      innov_pool := s.innov_pool }, ?_, rfl, rfl, ?_, hspfor, hlibmap,
      fun _ => rfl, ?_, rfl⟩
    · simp only [helper_serialize_base_neat, hbest, List.cons_append, List.nil_append,
        List.append_assoc] at *
      simp [helper_deserialize_base_neat, hsps, hlib, hpool]
    · by_cases hd : fresh.params.dynamic_compatibility_threshold <;> simp [hd]
    · intro b hb
      exact absurd hb (by simp)
  · obtain ⟨b', hbdes, hb1, hb2, _, _⟩ := des_genome_roundtrip b
      (sval.nat s.m_all_species.length ::
        (ser_list serialize_species s.m_all_species
          ++ (sval.nat s.m_best_genomes_library.length ::
            (ser_list serialize_genome s.m_best_genomes_library
              ++ serialize_innovation_pool s.innov_pool))))
    refine ⟨{
      params := (if fresh.params.dynamic_compatibility_threshold then
          { fresh.params with compatibility_threshold := s.params.compatibility_threshold }
        else fresh.params)
      m_next_species_id := s.m_next_species_id
      m_age_of_best_genome_ever := s.m_age_of_best_genome_ever
      m_best_genome_ever := some (genome.move_construct b')
      m_all_species := sps'
      m_best_genomes_library := libgs.map genome.move_construct
      innov_pool := s.innov_pool }, ?_, rfl, rfl, ?_, hspfor, hlibmap, ?_, ?_, rfl⟩
    · simp only [helper_serialize_base_neat, hbest, List.cons_append, List.nil_append,
        List.append_assoc] at *
      simp [helper_deserialize_base_neat, hbdes, hsps, hlib, hpool]
    · by_cases hd : fresh.params.dynamic_compatibility_threshold <;> simp [hd]
    · intro hn
      exact absurd hn (by simp)
    · intro b0 hb0
      obtain rfl := Option.some.inj hb0
      exact ⟨genome.move_construct b', rfl, hb1, rfl⟩

/-- C4 (amended).  Serialising writes, in order: next-species-id,
age-of-best-ever, compatibility threshold, a boolean followed (if true) by
the best-ever genome, the species list prefixed by count, the
best-genomes library prefixed by count, and the innovation pool;
deserialising that stream into a fresh driver reproduces the
next-species-id, the age, the species count (and every species field),
the exact gene list of every serialised genome, and the innovation pool —
but NOT the best-ever fitness: the best-ever genome (and every library
genome) is move-constructed into place and genome's move constructor
resets fitness to 0, and the compatibility threshold is restored only
when dynamic_compatibility_threshold is set. -/
theorem C4_serialization_roundtrip (s fresh : base_neat_state) :
    ∃ s', helper_deserialize_base_neat fresh (helper_serialize_base_neat s) = some s'
      ∧ s'.m_next_species_id = s.m_next_species_id
      ∧ s'.m_age_of_best_genome_ever = s.m_age_of_best_genome_ever
      ∧ s'.m_all_species.length = s.m_all_species.length
      ∧ s'.params.compatibility_threshold
          = (if fresh.params.dynamic_compatibility_threshold
             then s.params.compatibility_threshold
             else fresh.params.compatibility_threshold)
      ∧ List.Forall₂ (fun a b => species.id b = species.id a
          ∧ species.members b = species.members a
          ∧ species.age b = species.age a
          ∧ species.stagnation_counter b = species.stagnation_counter a
          ∧ species.best_fitness_ever_in_species b = species.best_fitness_ever_in_species a
          ∧ species.adjusted_fitness_sum b = species.adjusted_fitness_sum a
          ∧ (species.representant b).m_genes = (species.representant a).m_genes
          ∧ (species.representant b).m_fitness = (species.representant a).m_fitness)
          s.m_all_species s'.m_all_species
      ∧ List.Forall₂ (fun a b => genome.m_genes b = genome.m_genes a
          ∧ genome.m_fitness b = 0)
          s.m_best_genomes_library s'.m_best_genomes_library
      ∧ (s.m_best_genome_ever = none → s'.m_best_genome_ever = fresh.m_best_genome_ever)
      ∧ (∀ b, s.m_best_genome_ever = some b →
          ∃ b', s'.m_best_genome_ever = some b' ∧ b'.m_genes = b.m_genes
            ∧ b'.m_fitness = 0)
      ∧ s'.innov_pool = s.innov_pool := by
  obtain ⟨s', h1, h2, h3, h4, h5, h6, h7, h8, h9⟩ := roundtrip_base_neat s fresh
  exact ⟨s', h1, h2, h3, h5.length_eq.symm, h4, h5, h6, h7, h8, h9⟩

/-- C4 (counterexample).  A driver whose best-ever genome has fitness 5:
after serialise + deserialise the best-ever fitness is 0, not 5 — the
round trip does not reproduce the best-ever fitness the claim promises
(base_neat.cpp line 228 move-constructs the read genome and genome.cpp
line 37 initialises m_fitness to 0). -/
theorem C4_counterexample :
    c4S.m_best_genome_ever.map genome.m_fitness = some 5
    ∧ ((helper_deserialize_base_neat c4F (helper_serialize_base_neat c4S)).map
        (fun s2 => s2.m_best_genome_ever.map genome.m_fitness)) = some (some 0)
    ∧ (5 : ℚ) ≠ 0 := by
  refine ⟨rfl, by decide, by norm_num⟩

/-- Witness for C4: the round trip evaluated on the concrete driver state
c4S; the species id and count survive and the best-ever genome keeps its
gene list but loses its fitness. -/
theorem C4_witness :
    ∃ s', helper_deserialize_base_neat c4F (helper_serialize_base_neat c4S) = some s'
      ∧ s'.m_next_species_id = c4S.m_next_species_id
      ∧ ∃ b', s'.m_best_genome_ever = some b' ∧ b'.m_genes = c4best.m_genes
          ∧ b'.m_fitness = 0 := by
  obtain ⟨s', h1, h2, _, _, _, _, _, _, hsome, _⟩ := C4_serialization_roundtrip c4S c4F
  exact ⟨s', h1, h2, hsome c4best rfl⟩

/-- C9.  Move-constructing a genome transfers genes, known neurons and
layer sizes but initialises fitness to 0 regardless of the source's
fitness (genome.cpp lines 31-38); consequently the deserialised best-ever
genome, which is move-constructed into place (base_neat.cpp line 228),
ends up with fitness 0. -/
theorem C9_move_constructor_resets_fitness :
    (∀ g : genome, (genome.move_construct g).m_fitness = 0
      ∧ (genome.move_construct g).m_genes = g.m_genes
      ∧ (genome.move_construct g).m_known_neuron_ids = g.m_known_neuron_ids
      ∧ (genome.move_construct g).m_number_of_inputs = g.m_number_of_inputs
      ∧ (genome.move_construct g).m_number_of_outputs = g.m_number_of_outputs)
    ∧ (∀ (s fresh : base_neat_state) (b : genome), s.m_best_genome_ever = some b →
        ∃ s' b', helper_deserialize_base_neat fresh (helper_serialize_base_neat s) = some s'
          ∧ s'.m_best_genome_ever = some b' ∧ b'.m_genes = b.m_genes
          ∧ b'.m_fitness = 0) := by
  refine ⟨fun g => ⟨rfl, rfl, rfl, rfl, rfl⟩, ?_⟩
  intro s fresh b hb
  obtain ⟨s', h1, _, _, _, _, _, _, hsome, _⟩ := roundtrip_base_neat s fresh
  obtain ⟨b', hb', hg, hf⟩ := hsome b hb
  exact ⟨s', b', h1, hb', hg, hf⟩

/-- Witness for C9: the driver state c4S whose best-ever genome has
fitness 5; after the round trip the best-ever genome keeps its gene list
and has fitness 0. -/
theorem C9_witness :
    c4S.m_best_genome_ever = some c4best
    ∧ ∃ s' b', helper_deserialize_base_neat c4F (helper_serialize_base_neat c4S) = some s'
        ∧ s'.m_best_genome_ever = some b' ∧ b'.m_genes = c4best.m_genes
        ∧ b'.m_fitness = 0 :=
  ⟨rfl, C9_move_constructor_resets_fitness.2 c4S c4F c4best rfl⟩
